import Mathlib

/-!
Shallow embedding of the hyperspy marker subsystem
(`hyperspy/drawing/markers.py` and `hyperspy/drawing/_markers/*`), together
with proofs about its specification.  Numbers are modelled as rationals,
numpy arrays as rectangular nested lists, object-dtype ("ragged") arrays as a
shape plus a row-major cell list, and dask-backed object arrays additionally
carry their chunk structure.  Stateful methods are modelled as functions from
a `MarkerState` (the attributes of a `Markers` instance) to a new state, with
fallible code returning `Except`.
-/

set_option maxHeartbeats 1000000

namespace HSpy

/-- Scalar cell of a numpy-like value: a number (modelled as a rational) or a
string. -/
inductive PScalar where
  | num (q : ℚ)
  | str (s : String)
deriving DecidableEq

/-- Rectangular nested numeric/string array (a numpy ndarray of non-object
dtype); `cell` is a 0-d scalar, `node` one dimension of sub-arrays. -/
inductive Tensor where
  | cell (v : PScalar)
  | node (ts : List Tensor)

mutual

/-- Decidable equality for `Tensor` (the nested inductive prevents deriving). -/
def decEqTensor : (a b : Tensor) → Decidable (a = b)
  | .cell v, .cell w =>
      match decEq v w with
      | isTrue h => isTrue (by rw [h])
      | isFalse h => isFalse (by intro hh; cases hh; exact h rfl)
  | .cell _, .node _ => isFalse (by intro h; cases h)
  | .node _, .cell _ => isFalse (by intro h; cases h)
  | .node ts, .node us =>
      match decEqTensorList ts us with
      | isTrue h => isTrue (by rw [h])
      | isFalse h => isFalse (by intro hh; cases hh; exact h rfl)

/-- Decidable equality for lists of tensors. -/
def decEqTensorList : (a b : List Tensor) → Decidable (a = b)
  | [], [] => isTrue rfl
  | [], _ :: _ => isFalse (by intro h; cases h)
  | _ :: _, [] => isFalse (by intro h; cases h)
  | t :: ts, u :: us =>
      match decEqTensor t u, decEqTensorList ts us with
      | isTrue h1, isTrue h2 => isTrue (by rw [h1, h2])
      | isFalse h1, _ => isFalse (by intro hh; injection hh; contradiction)
      | _, isFalse h2 => isFalse (by intro hh; injection hh; contradiction)

end

instance : DecidableEq Tensor := decEqTensor

/-- Error conditions raised in the marker subsystem; each constructor stands
for one raise site or python exception kind reached by the embedded code. -/
inductive PyErr where
  | badCollectionClass (name : String)
  | transformConflict
  | badTransform
  | adapterTransform (markerType : String)
  | shapeMismatch
  | typeErr (msg : String)
  | keyErr (key : String)
  | indexErr
  | valueErr (msg : String)
deriving DecidableEq

/-- A numpy object-dtype ("ragged") array: per-navigation-position cells stored
in row-major order; `shape` is the leading (navigation) shape. -/
structure Ragged where
  shape : List Nat
  cells : List Tensor
deriving DecidableEq

/-- A python value held in a marker keyword-argument slot.  `tensor` is a
plain numpy array, `scalar` a bare python number/str, `tup` a tuple,
`pylist` a python list whose `np.array` conversion would be the carried
tensor, `patches` a list of matplotlib Patch objects (opaque), `ragged` a
numpy object-dtype array, and the two `dask` forms are lazy arrays. -/
inductive PyVal where
  | tensor (t : Tensor)
  | scalar (v : PScalar)
  | tup (vs : List PScalar)
  | pylist (t : Tensor)
  | patches (n : Nat)
  | ragged (r : Ragged)
  | daskRagged (chunks : List (List Nat)) (r : Ragged)
  | daskPlain (t : Tensor)
deriving DecidableEq

/-- The attributes of a live `Markers` instance that the embedded methods
read or write.  `plot_on_signal` is the `_plot_on_signal` attribute;
`cacheSlice`/`cacheData` are `_cache_dask_chunk_kwargs_slice` and
`_cache_dask_chunk_kwargs`. -/
structure MarkerState where
  marker_type : String
  collection_class : String
  plot_on_signal : Bool
  offsets_transform : String
  transform : String
  shift : Option ℚ
  kwargs : List (String × PyVal)
  dask_kwargs : List String
  cacheSlice : List (String × List (Nat × Nat))
  cacheData : List (String × Ragged)
deriving DecidableEq

/-- The read-only host context a marker consults at draw time: the axes
manager's current `indices` and navigation shape, the currently displayed 1-D
trace (`temp_signal`), and the first signal axis' `offset` and `scale`. -/
structure Host where
  indices : List Nat
  navShape : List Nat
  trace : List ℚ
  axOffset : ℚ
  axScale : ℚ

/-- Decidable equality for `Except` results, used to evaluate the embedded
functions at concrete inputs. -/
instance {ε α : Type} [DecidableEq ε] [DecidableEq α] :
    DecidableEq (Except ε α)
  | .ok a, .ok b =>
      match decEq a b with
      | isTrue h => isTrue (by rw [h])
      | isFalse h => isFalse (by intro hh; injection hh; contradiction)
  | .ok _, .error _ => isFalse (by intro h; cases h)
  | .error _, .ok _ => isFalse (by intro h; cases h)
  | .error e, .error f =>
      match decEq e f with
      | isTrue h => isTrue (by rw [h])
      | isFalse h => isFalse (by intro hh; injection hh; contradiction)

/-- Association-list lookup, modelling python dict `d[k]`/`d.get(k)`. -/
def aget {α : Type} : List (String × α) → String → Option α
  | [], _ => none
  | (k, v) :: t, key => if k = key then some v else aget t key

/-- Association-list update, modelling python dict `d[k] = v` (replaces in
place, appends at the end when the key is new). -/
def aset {α : Type} : List (String × α) → String → α → List (String × α)
  | [], key, v => [(key, v)]
  | (k, w) :: t, key, v =>
      if k = key then (key, v) :: t else (k, w) :: aset t key v

/-- Keys of an association list (python `d.keys()`). -/
def akeys {α : Type} (l : List (String × α)) : List String :=
  l.map Prod.fst

/-- Membership test, python `k in d`. -/
def ahas {α : Type} (l : List (String × α)) (key : String) : Bool :=
  l.any (fun p => p.1 = key)

/-- Remove every pair whose key is listed (python `d.pop(k)` for each key of a
duplicate-free dict). -/
def aremoveAll {α : Type} : List (String × α) → List String → List (String × α)
  | [], _ => []
  | (k, v) :: t, ks =>
      if k ∈ ks then aremoveAll t ks else (k, v) :: aremoveAll t ks

mutual

/-- Shape of a rectangular tensor; `none` when the nesting is inhomogeneous
(numpy never produces such a value for a non-object array). -/
def tensorShape : Tensor → Option (List Nat)
  | .cell _ => some []
  | .node ts =>
      match tensorShapeList ts with
      | none => none
      | some [] => some [0]
      | some (sh :: rest) =>
          if rest.all (fun s => s = sh) then some (ts.length :: sh) else none

/-- Shapes of a list of tensors, `none` if any member is inhomogeneous. -/
def tensorShapeList : List Tensor → Option (List (List Nat))
  | [] => some []
  | t :: ts =>
      match tensorShape t, tensorShapeList ts with
      | some sh, some rest => some (sh :: rest)
      | _, _ => none

end

/-- Model of `np.append(a, v, axis=0)`: defined when both operands are arrays
of equal rank whose trailing shapes agree, raising `ValueError` (here
`shapeMismatch`) otherwise. -/
def npAppend (a v : Tensor) : Except PyErr Tensor :=
  match a, v with
  | .node as, .node vs =>
      match tensorShape (.node as), tensorShape (.node vs) with
      | some (_ :: sa), some (_ :: sv) =>
          if sa = sv then .ok (.node (as ++ vs)) else .error .shapeMismatch
      | _, _ => .error .shapeMismatch
  | _, _ => .error .shapeMismatch

/-- Row-major flat index of a multi-index in a given shape. -/
def flatIndex : List Nat → List Nat → Nat
  | _ :: shr, i :: ir => i * shr.prod + flatIndex shr ir
  | _, _ => 0

/-- Every multi-index of a shape, in row-major (np.ndindex) order. -/
def allIdx : List Nat → List (List Nat)
  | [] => [[]]
  | n :: rest => (List.range n).flatMap (fun i => (allIdx rest).map (fun l => i :: l))

/-- Index an object-dtype array at a multi-index (`value[indices]`). -/
def raggedGet (r : Ragged) (idx : List Nat) : Except PyErr Tensor :=
  if idx.length = r.shape.length ∧ (List.zip idx r.shape).all (fun p => p.1 < p.2) then
    match r.cells.get? (flatIndex r.shape idx) with
    | some t => .ok t
    | none => .error .indexErr
  else .error .indexErr

/-- Extract the block of an object-dtype array covered by per-dimension
`(start, stop)` slices (`value[index_slice]` for in-range slices; numpy's
clamping of overlong slices is not modelled, out-of-range cells read as an
empty array). -/
def raggedSlice (r : Ragged) (sl : List (Nat × Nat)) : Ragged :=
  let shape := sl.map (fun p => p.2 - p.1)
  { shape := shape
    cells := (allIdx shape).map (fun idx =>
      ((r.cells.get? (flatIndex r.shape
          (List.zipWith (fun a b => a + b) idx (sl.map Prod.fst)))).getD
        (.node []))) }

/-- Model of `np.round(x).astype(int)`: round half to even. -/
def npRound (q : ℚ) : ℤ :=
  let f := ⌊q⌋
  let r := q - f
  if r < 1 / 2 then f
  else if 1 / 2 < r then f + 1
  else if 2 ∣ f then f else f + 1

/-- Modelled from the spec: `_get_navigation_dimension_chunk_slice` is imported
from `hyperspy.misc.array_tools`, which is not under src/.  Per the spec (§4.3)
it "computes the chunk-slice covering `index` in the lazy store's native
chunking"; for one dimension we walk the chunk sizes accumulating a start
offset until the chunk containing the index is found. -/
def chunkSliceDim (start idx : Nat) : List Nat → Option (Nat × Nat)
  | [] => none
  | c :: rest =>
      if idx < start + c then some (start, start + c)
      else chunkSliceDim (start + c) idx rest

/-- Modelled from the spec: the per-dimension slices of the chunk covering a
navigation index (see `chunkSliceDim`). -/
def navChunkSlice (indices : List Nat) (chunks : List (List Nat)) :
    Option (List (Nat × Nat)) :=
  if indices.length = chunks.length then
    (List.zip indices chunks).mapM (fun p => chunkSliceDim 0 p.1 p.2)
  else none

/-- The module-level `is_iterating`: value is an ndarray or dask array with
`dtype == object`. -/
def is_iterating : PyVal → Bool
  | .ragged _ => true
  | .daskRagged _ _ => true
  | _ => false

/-- A dask array of dtype object (the values collected into `dask_kwargs`). -/
def isDaskObj : PyVal → Bool
  | .daskRagged _ _ => true
  | _ => false

/-- Python `hasattr(value, "__len__")` for the modelled values: a bare number
has no `__len__`, a python str does, and every ndarray (0-d included) carries
the attribute (even though calling `len` on a 0-d array would raise). -/
def hasLen : PyVal → Bool
  | .tensor _ => true
  | .scalar (.str _) => true
  | .scalar (.num _) => false
  | .tup _ => true
  | .pylist _ => true
  | .patches _ => true
  | .ragged _ => true
  | .daskRagged _ _ => true
  | .daskPlain _ => true

/-- Python `isinstance(value, str)`. -/
def isStrVal : PyVal → Bool
  | .scalar (.str _) => true
  | _ => false

/-- The dask/list conversions of the `Markers.__init__` kwargs loop: a
non-object dask array is computed, a non-empty non-Patch list other than
`verts` is cast with `np.array`, an empty list is cast as well. -/
def convertKwarg (key : String) (v : PyVal) : PyVal :=
  match v with
  | .daskRagged _ _ => v
  | .daskPlain t => .tensor t
  | .pylist (.node []) => .tensor (.node [])
  | .pylist (.node ts) => if key = "verts" then v else .tensor (.node ts)
  | .pylist _ => v
  | .patches 0 => .tensor (.node [])
  | _ => v

/-- The `(value,)` wrapping applied to scalar-looking `sizes`/`color`/`s`. -/
def wrapTuple : PyVal → PyVal
  | .scalar v => .tup [v]
  | .tensor (.cell v) => .tup [v]
  | v => v

/-- One pass of the `Markers.__init__` kwargs loop for a single key.  The
python loop first performs the conversions and then, testing the original
value, overwrites scalar-looking `sizes`/`color` (and str-valued `s`) with a
one-element tuple of the original value. -/
def normalizeKwarg (key : String) (v : PyVal) : PyVal :=
  if (key = "sizes" ∨ key = "color") ∧ (¬ hasLen v ∨ isStrVal v) then wrapTuple v
  else if key = "s" ∧ isStrVal v then wrapTuple v
  else convertKwarg key v

/-- Normalization of one kwargs entry. -/
def normPair (p : String × PyVal) : String × PyVal :=
  (p.1, normalizeKwarg p.1 p.2)

/-- Collection classes accepted by `Markers.__init__`: matplotlib (or
hyperspy-external matplotlib) collection classes plus `Quiver`; any other
name fails the `getattr`/`"matplotlib.collections" in str(...)` gate. -/
def validCollectionClass (name : String) : Bool :=
  name ∈ ["Collection", "LineCollection", "PolyCollection", "PatchCollection",
    "CircleCollection", "EllipseCollection", "RectangleCollection",
    "RegularPolyCollection", "StarPolygonCollection",
    "AsteriskPolygonCollection", "PathCollection", "EventCollection",
    "QuadMesh", "TextCollection", "Quiver"]

/-- The transform tags accepted by `Markers._set_transform` for either
transform attribute. -/
def allowedTransforms : List String :=
  ["data", "axes", "xaxis", "yaxis", "display", "relative", "xaxis_scale",
   "yaxis_scale"]

/-- The body of `Markers.__init__`, shared by every adapter subclass: the
collection-class gate, the `offsets_transform is "data"` / `transform in
["axes","data"]` conflict check (string `is` on these interned literal tags is
modelled as equality), the kwargs-normalization loop with `dask_kwargs`
collection, and the two `_set_transform` validations.  A python `None`
transform argument is modelled by `Option.getD` with the sentinel "None",
which fails the membership test exactly as `None` does. -/
def markersInitCore (markerType collectionClass : String)
    (offsetsTransform transform : Option String) (shift : Option ℚ)
    (kwargs : List (String × PyVal)) : Except PyErr MarkerState :=
  if ¬ validCollectionClass collectionClass then
    .error (.badCollectionClass collectionClass)
  else if offsetsTransform = some "data" ∧
      (transform = some "axes" ∨ transform = some "data") then
    .error .transformConflict
  else if offsetsTransform.getD "None" ∉ allowedTransforms then
    .error .badTransform
  else if transform.getD "None" ∉ allowedTransforms then
    .error .badTransform
  else .ok
    { marker_type := markerType
      collection_class := collectionClass
      plot_on_signal := true
      offsets_transform := offsetsTransform.getD "None"
      transform := transform.getD "None"
      shift := shift
      kwargs := kwargs.map normPair
      dask_kwargs :=
        ((kwargs.map normPair).filter (fun p => isDaskObj p.2)).map Prod.fst
      cacheSlice := []
      cacheData := [] }

/-- Named parameters of `Markers.__init__`: a record kwarg with one of these
names is bound by the call machinery, and passing it both explicitly and via
`**kwargs` raises `TypeError`. -/
def markersReserved : List String :=
  ["collection_class", "offsets_transform", "transform", "shift"]

/-- Generic `Markers(collection_class=..., ...)` construction. -/
def markersInit (collectionClass : String)
    (offsetsTransform transform : Option String) (shift : Option ℚ)
    (kwargs : List (String × PyVal)) : Except PyErr MarkerState :=
  if kwargs.any (fun p => p.1 ∈ markersReserved) then
    .error (.typeErr "multiple values for keyword argument")
  else markersInitCore "Markers" collectionClass offsetsTransform transform
    shift kwargs

/-- Reserved names for the equal-widths-heights adapters (`Points`, `Circles`,
`Squares`): their named parameters plus those of `Markers.__init__`. -/
def equalWHReserved : List String :=
  ["collection_class", "offsets", "sizes", "angles", "units", "facecolors",
   "offsets_transform", "transform", "shift"]

/-- Shared body of `_EqualWidthsHeightsMarkers.__init__`: rejects an explicit
`transform` other than "display", fixes `transform = "display"`, and passes
the named arguments to `Markers.__init__` in canonical order
`offsets, sizes, angles, units` (plus `facecolors` for `Circles`) followed by
the remaining kwargs.  `transformArg` is `some v` when the caller passed a
`transform` keyword with python value `v` (`some none` for `None`). -/
def equalWHInit (markerType collectionClass : String)
    (offsets sizes angles units : PyVal) (extraNamed : List (String × PyVal))
    (offsetsTransform : Option String) (transformArg : Option (Option String))
    (shift : Option ℚ) (rest : List (String × PyVal)) :
    Except PyErr MarkerState :=
  if rest.any (fun p => p.1 ∈ equalWHReserved) then
    .error (.typeErr "multiple values for keyword argument")
  else if transformOff then .error (.adapterTransform markerType)
  else markersInitCore markerType collectionClass offsetsTransform
    (some "display") shift
    ([("offsets", offsets), ("sizes", sizes), ("angles", angles),
      ("units", units)] ++ extraNamed ++ rest)
where
  transformOff : Bool :=
    match transformArg with
    | some t => t ≠ some "display"
    | none => false

/-- `Points.__init__`. -/
def pointsInit (offsets sizes angles units : PyVal)
    (offsetsTransform : Option String) (transformArg : Option (Option String))
    (shift : Option ℚ) (rest : List (String × PyVal)) :
    Except PyErr MarkerState :=
  equalWHInit "Points" "EllipseCollection" offsets sizes angles units []
    offsetsTransform transformArg shift rest

/-- `Circles.__init__` (adds the `facecolors` named argument). -/
def circlesInit (offsets sizes angles units facecolors : PyVal)
    (offsetsTransform : Option String) (transformArg : Option (Option String))
    (shift : Option ℚ) (rest : List (String × PyVal)) :
    Except PyErr MarkerState :=
  equalWHInit "Circles" "EllipseCollection" offsets sizes angles units
    [("facecolors", facecolors)] offsetsTransform transformArg shift rest

/-- `Squares.__init__`. -/
def squaresInit (offsets sizes angles units : PyVal)
    (offsetsTransform : Option String) (transformArg : Option (Option String))
    (shift : Option ℚ) (rest : List (String × PyVal)) :
    Except PyErr MarkerState :=
  equalWHInit "Squares" "RectangleCollection" offsets sizes angles units []
    offsetsTransform transformArg shift rest

/-- Reserved names for the widths-heights adapters (`Ellipses`,
`Rectangles`). -/
def widthsHeightsReserved : List String :=
  ["collection_class", "offsets", "widths", "heights", "units", "angles",
   "offsets_transform", "transform", "shift"]

/-- Shared body of `_WidthsHeightsMarkers.__init__`: canonical kwargs order is
`offsets, widths, heights, units, angles`. -/
def widthsHeightsInit (markerType collectionClass : String)
    (offsets widths heights units angles : PyVal)
    (offsetsTransform : Option String) (transformArg : Option (Option String))
    (shift : Option ℚ) (rest : List (String × PyVal)) :
    Except PyErr MarkerState :=
  if rest.any (fun p => p.1 ∈ widthsHeightsReserved) then
    .error (.typeErr "multiple values for keyword argument")
  else if transformOff then .error (.adapterTransform markerType)
  else markersInitCore markerType collectionClass offsetsTransform
    (some "display") shift
    ([("offsets", offsets), ("widths", widths), ("heights", heights),
      ("units", units), ("angles", angles)] ++ rest)
where
  transformOff : Bool :=
    match transformArg with
    | some t => t ≠ some "display"
    | none => false

/-- `Ellipses.__init__`. -/
def ellipsesInit (offsets heights widths units angles : PyVal)
    (offsetsTransform : Option String) (transformArg : Option (Option String))
    (shift : Option ℚ) (rest : List (String × PyVal)) :
    Except PyErr MarkerState :=
  widthsHeightsInit "Ellipses" "EllipseCollection" offsets widths heights
    units angles offsetsTransform transformArg shift rest

/-- `Rectangles.__init__`. -/
def rectanglesInit (offsets widths heights units angles : PyVal)
    (offsetsTransform : Option String) (transformArg : Option (Option String))
    (shift : Option ℚ) (rest : List (String × PyVal)) :
    Except PyErr MarkerState :=
  widthsHeightsInit "Rectangles" "RectangleCollection" offsets widths heights
    units angles offsetsTransform transformArg shift rest

/-- Reserved names for the line adapters. -/
def lineAdapterReserved : List String :=
  ["collection_class", "offsets", "offsets_transform", "transform", "shift"]

/-- `HorizontalLines.__init__`: requires `transform = "yaxis"` and
`offsets_transform = "display"` when explicitly given, then fixes both. -/
def horizontalLinesInit (offsets : PyVal)
    (transformArg offsetsTransformArg : Option (Option String))
    (shift : Option ℚ) (rest : List (String × PyVal)) :
    Except PyErr MarkerState :=
  if rest.any (fun p => p.1 ∈ lineAdapterReserved) then
    .error (.typeErr "multiple values for keyword argument")
  else if badTr then .error (.adapterTransform "HorizontalLines")
  else if badOt then .error (.adapterTransform "HorizontalLines")
  else markersInitCore "HorizontalLines" "LineCollection" (some "display")
    (some "yaxis") shift ([("offsets", offsets)] ++ rest)
where
  badTr : Bool :=
    match transformArg with
    | some t => t ≠ some "yaxis"
    | none => false
  badOt : Bool :=
    match offsetsTransformArg with
    | some t => t ≠ some "display"
    | none => false

/-- `VerticalLines.__init__`: requires `transform = "xaxis"` and
`offsets_transform = "display"` when explicitly given, then fixes both. -/
def verticalLinesInit (offsets : PyVal)
    (transformArg offsetsTransformArg : Option (Option String))
    (shift : Option ℚ) (rest : List (String × PyVal)) :
    Except PyErr MarkerState :=
  if rest.any (fun p => p.1 ∈ lineAdapterReserved) then
    .error (.typeErr "multiple values for keyword argument")
  else if badTr then .error (.adapterTransform "VerticalLines")
  else if badOt then .error (.adapterTransform "VerticalLines")
  else markersInitCore "VerticalLines" "LineCollection" (some "display")
    (some "xaxis") shift ([("offsets", offsets)] ++ rest)
where
  badTr : Bool :=
    match transformArg with
    | some t => t ≠ some "xaxis"
    | none => false
  badOt : Bool :=
    match offsetsTransformArg with
    | some t => t ≠ some "display"
    | none => false

/-- `Texts.__init__`: rejects an explicit `transform` other than "display"
(the `is not "display"` comparison on the interned literal is modelled as
inequality), fixes `transform = "display"`. -/
def textsInit (offsets : PyVal) (offsetsTransform : Option String)
    (transformArg : Option (Option String)) (shift : Option ℚ)
    (rest : List (String × PyVal)) : Except PyErr MarkerState :=
  if rest.any (fun p => p.1 ∈ lineAdapterReserved) then
    .error (.typeErr "multiple values for keyword argument")
  else if badTr then .error (.adapterTransform "Texts")
  else markersInitCore "Texts" "TextCollection" offsetsTransform
    (some "display") shift ([("offsets", offsets)] ++ rest)
where
  badTr : Bool :=
    match transformArg with
    | some t => t ≠ some "display"
    | none => false

/-- Modelled from the spec: the `Lines` marker class
(`hyperspy/drawing/_markers/lines.py`) is not under src/.  Per the spec's
adapter table (§4.4) it takes `segments` (n×2×2), fixes the render transform
to "data" (or "relative"), and passes the geometry through to a
`LineCollection`. -/
def linesInit (segments : PyVal)
    (transformArg offsetsTransformArg : Option (Option String))
    (shift : Option ℚ) (rest : List (String × PyVal)) :
    Except PyErr MarkerState :=
  if rest.any (fun p =>
      p.1 ∈ ["collection_class", "segments", "offsets_transform", "transform",
        "shift"]) then
    .error (.typeErr "multiple values for keyword argument")
  else
    let tr := (transformArg.getD (some "data")).getD "None"
    if ¬ (tr = "data" ∨ tr = "relative") then
      .error (.adapterTransform "Lines")
    else markersInitCore "Lines" "LineCollection"
      (some ((offsetsTransformArg.getD (some "display")).getD "None"))
      (some tr) shift ([("segments", segments)] ++ rest)

/-- Modelled from the spec: the `Arrows` marker class is not under src/.  Per
the spec's adapter table (§4.4) it takes `offsets, U, V` (direction
components), fixes the render transform to "data", and delegates to the
vector-field renderer (`Quiver`). -/
def arrowsInit (offsets u v : PyVal)
    (transformArg offsetsTransformArg : Option (Option String))
    (shift : Option ℚ) (rest : List (String × PyVal)) :
    Except PyErr MarkerState :=
  if rest.any (fun p =>
      p.1 ∈ ["collection_class", "offsets", "U", "V", "offsets_transform",
        "transform", "shift"]) then
    .error (.typeErr "multiple values for keyword argument")
  else if badTr then .error (.adapterTransform "Arrows")
  else markersInitCore "Arrows" "Quiver"
    (some ((offsetsTransformArg.getD (some "display")).getD "None"))
    (some "data") shift
    ([("offsets", offsets), ("U", u), ("V", v)] ++ rest)
where
  badTr : Bool :=
    match transformArg with
    | some t => t ≠ some "data"
    | none => false

/-- Modelled from the spec: the `Polygons` marker class is not under src/ and
is absent from the spec's adapter table; it is modelled, consistently with the
generic `Markers` class over a `PolyCollection`, as a pass-through adapter on
`verts` with the generic defaults. -/
def polygonsInit (verts : PyVal)
    (transformArg offsetsTransformArg : Option (Option String))
    (shift : Option ℚ) (rest : List (String × PyVal)) :
    Except PyErr MarkerState :=
  if rest.any (fun p =>
      p.1 ∈ ["collection_class", "verts", "offsets_transform", "transform",
        "shift"]) then
    .error (.typeErr "multiple values for keyword argument")
  else if badTr then .error (.adapterTransform "Polygons")
  else markersInitCore "Polygons" "PolyCollection"
    (some ((offsetsTransformArg.getD (some "data")).getD "None"))
    (some "display") shift ([("verts", verts)] ++ rest)
where
  badTr : Bool :=
    match transformArg with
    | some t => t ≠ some "display"
    | none => false

/-- The `_is_iterating` property: never for a relative transform, otherwise —
when plotted on the signal — true when any kwarg is an object-dtype value;
markers drawn on the navigator are never iterating. -/
def MarkerState.isIterating (s : MarkerState) : Bool :=
  if s.transform = "relative" ∨ s.offsets_transform = "relative" then false
  else if s.plot_on_signal then s.kwargs.any (fun p => is_iterating p.2)
  else false

/-- Numpy 1-D integer indexing with negative wrap-around
(`current_data[index]`). -/
def npIndex1 (trace : List ℚ) (i : ℤ) : Except PyErr ℚ :=
  if 0 ≤ i then
    match trace.get? i.toNat with
    | some q => .ok q
    | none => .error .indexErr
  else
    let j : ℤ := (trace.length : ℤ) + i
    if 0 ≤ j then
      match trace.get? j.toNat with
      | some q => .ok q
      | none => .error .indexErr
    else .error .indexErr

/-- Model of `np.max` on a 1-D array (raises on an empty array). -/
def listMaxQ : List ℚ → Except PyErr ℚ
  | [] => .error (.valueErr "zero-size array reduction")
  | q :: qs => .ok (qs.foldl max q)

/-- Model of `np.min` on a 1-D array (raises on an empty array). -/
def listMinQ : List ℚ → Except PyErr ℚ
  | [] => .error (.valueErr "zero-size array reduction")
  | q :: qs => .ok (qs.foldl min q)

/-- One point of the relative-scaling map of `_scale_kwarg`: the nearest
sample index of the x position on the signal axis selects the live trace
value, which scales the stored fractional y; a configured `shift` adds
`shift * (max(trace) - min(trace))`. -/
def scalePoint (host : Host) (shift : Option ℚ) (x y : ℚ) :
    Except PyErr (ℚ × ℚ) := do
  let tv ← npIndex1 host.trace (npRound ((x - host.axOffset) / host.axScale))
  match shift with
  | none => pure (x, tv * y)
  | some sh => do
      let hi ← listMaxQ host.trace
      let lo ← listMinQ host.trace
      pure (x, tv * y + sh * (hi - lo))

mutual

/-- Apply a point map to every innermost `[x, y]` pair of a tensor of points
(offsets are (n,2) and segments (n,2,2); the innermost vectors must be numeric
pairs, as the source's `arr[..., 0]` / `arr[..., 1]` slicing assumes). -/
def mapPoints (f : ℚ → ℚ → Except PyErr (ℚ × ℚ)) :
    Tensor → Except PyErr Tensor
  | .node [.cell (.num x), .cell (.num y)] => do
      let p ← f x y
      pure (.node [.cell (.num p.1), .cell (.num p.2)])
  | .node ts => do
      let us ← mapPointsList f ts
      pure (.node us)
  | .cell _ => .error (.typeErr "expected an array of points")

/-- Map over a list of point tensors. -/
def mapPointsList (f : ℚ → ℚ → Except PyErr (ℚ × ℚ)) :
    List Tensor → Except PyErr (List Tensor)
  | [] => pure []
  | t :: ts => do
      let u ← mapPoints f t
      let us ← mapPointsList f ts
      pure (u :: us)

end

/-- The `_scale_kwarg` method: each `[x, y]` point of the named kwarg is
replaced by `[x, trace[round((x - offset)/scale)] * y (+ shift * yrange)]`. -/
def scale_kwarg (s : MarkerState) (host : Host)
    (kwds : List (String × PyVal)) (key : String) :
    Except PyErr (List (String × PyVal)) :=
  match aget kwds key with
  | some (.tensor t) => do
      let t2 ← mapPoints (scalePoint host s.shift) t
      pure (aset kwds key (.tensor t2))
  | some _ => .error (.typeErr "expected an ndarray of positions")
  | none => .error (.keyErr key)

/-- The `_get_cache_dask_kwargs_chunk` method.  For each lazily-backed kwarg
the chunk slice covering `indices` is computed; entries whose cached slice
differs (or is absent) are recorded for computation and their slice cache
updated; the recorded slices are then materialized and replace the cached
blocks; finally every cached block is indexed at the slice-relative indices.
The returned list of keys is the set of kwargs materialized by this call. -/
def getCacheDaskKwargsChunk (s : MarkerState) (indices : List Nat) :
    Except PyErr (MarkerState × List (String × PyVal) × List String) := do
  let entries ← s.dask_kwargs.mapM (fun k =>
    match aget s.kwargs k with
    | some (.daskRagged chunks r) =>
        match navChunkSlice indices chunks with
        | some sl => Except.ok (k, r, sl)
        | none => Except.error PyErr.indexErr
    | _ => Except.error (PyErr.keyErr k))
  let step := entries.foldl (fun acc e =>
      if aget acc.1 e.1 = some e.2.2 then acc
      else (aset acc.1 e.1 e.2.2, acc.2 ++ [(e.1, raggedSlice e.2.1 e.2.2)]))
    (s.cacheSlice, ([] : List (String × Ragged)))
  let newData := step.2.foldl (fun d p => aset d p.1 p.2) s.cacheData
  let out ← newData.mapM (fun p =>
      match aget (entries.map (fun e => (e.1, e.2.2))) p.1 with
      | some sl => do
          let t ← raggedGet p.2
            (List.zipWith (fun a b => a - b) indices (sl.map Prod.fst))
          Except.ok (p.1, PyVal.tensor t)
      | none => Except.error (PyErr.keyErr p.1))
  pure ({s with cacheSlice := step.1, cacheData := newData}, out,
    step.2.map Prod.fst)

/-- Selection of one iterating (object-dtype) kwarg at the current indices:
`value[indices]`, with a scalar-looking `sizes`/`color` cell wrapped into a
one-element tuple. -/
def selectIterVal (key : String) (r : Ragged) (indices : List Nat) :
    Except PyErr PyVal := do
  let cell ← raggedGet r indices
  match cell with
  | .cell sc =>
      if key = "sizes" ∨ key = "color" then pure (.tup [sc])
      else pure (.tensor (.cell sc))
  | t => pure (.tensor t)

/-- The object-dtype payload of a kwarg value, when it has one. -/
def raggedOf : PyVal → Option Ragged
  | .ragged r => some r
  | .daskRagged _ r => some r
  | _ => none

/-- One step of the iterating loop of `get_data_position`: an object-dtype
kwarg not handled by the dask cache is selected at the current indices, a
static kwarg is appended verbatim when `get_static_kwargs` is set. -/
def selectEntry (daskKeys : List String) (indices : List Nat)
    (get_static_kwargs : Bool) (acc : List (String × PyVal))
    (p : String × PyVal) : Except PyErr (List (String × PyVal)) :=
  if is_iterating p.2 then
    if p.1 ∈ daskKeys then pure acc
    else
      match raggedOf p.2 with
      | some r => do
          let v ← selectIterVal p.1 r indices
          pure (acc ++ [(p.1, v)])
      | none => pure acc
  else if get_static_kwargs then pure (acc ++ [p]) else pure acc

/-- The `Markers.get_data_position` method.  On the iterating path each
object-dtype kwarg is selected at the (reversed) current indices, static
kwargs are included verbatim when requested, and lazily-backed kwargs are
merged in from the chunk cache; on the static path the stored kwargs are
returned as they are (the source returns the `self.kwargs` dict itself).
When a relative transform is active and `get_modified` is set, `offsets` and
`segments` are rescaled against the live trace. -/
def get_data_position (s : MarkerState) (host : Host)
    (get_static_kwargs get_modified : Bool) :
    Except PyErr (MarkerState × List (String × PyVal)) := do
  let pair ←
    if s.isIterating then do
      let indices := host.indices.reverse
      let base ← s.kwargs.foldlM
        (selectEntry s.dask_kwargs indices get_static_kwargs)
        ([] : List (String × PyVal))
      if s.dask_kwargs.isEmpty then pure (s, base)
      else do
        let trip ← getCacheDaskKwargsChunk s indices
        pure (trip.1, trip.2.1.foldl (fun cur p => aset cur p.1 p.2) base)
    else pure (s, s.kwargs)
  let s1 := pair.1
  let current := pair.2
  if get_modified ∧
      (s.offsets_transform = "relative" ∨ s.transform = "relative") then do
    let c1 ← if ahas current "offsets" then
        scale_kwarg s1 host current "offsets"
      else pure current
    let c2 ← if ahas c1 "segments" then
        scale_kwarg s1 host c1 "segments"
      else pure c1
    pure (s1, c2)
  else pure (s1, current)

/-- The `HorizontalLines.get_data_position` override: pops `offsets` and
expands each y into the 2-point segment `[[0, y], [1, y]]` (the base call is
made with the default `get_modified=True`; note the popped dict is the stored
kwargs itself on the static path). -/
def hlGetDataPosition (s : MarkerState) (host : Host)
    (get_static_kwargs get_modified : Bool) :
    Except PyErr (MarkerState × List (String × PyVal)) := do
  let pair ← get_data_position s host get_static_kwargs true
  if get_modified then
    match aget pair.2 "offsets" with
    | none => .error (.keyErr "offsets")
    | some (.tensor (.node ys)) => do
        let segs ← ys.mapM (fun yc =>
          match yc with
          | .cell (.num y) =>
              Except.ok (Tensor.node
                [.node [.cell (.num 0), .cell (.num y)],
                 .node [.cell (.num 1), .cell (.num y)]])
          | _ => Except.error (PyErr.typeErr "expected scalar y offsets"))
        pure (pair.1,
          aset (aremoveAll pair.2 ["offsets"]) "segments" (.tensor (.node segs)))
    | some _ => .error (.typeErr "expected an offsets array")
  else pure pair

/-- The `VerticalLines.get_data_position` override: pops `offsets` and expands
each x into `[[x, 0], [x, 1]]`.  In the source the pop sits under
`if get_modified:` but the segment construction is outside it, so a
`get_modified=False` call raises `NameError` on `x_pos` — modelled
faithfully. -/
def vlGetDataPosition (s : MarkerState) (host : Host)
    (get_static_kwargs get_modified : Bool) :
    Except PyErr (MarkerState × List (String × PyVal)) := do
  let pair ← get_data_position s host get_static_kwargs true
  if get_modified then
    match aget pair.2 "offsets" with
    | none => .error (.keyErr "offsets")
    | some (.tensor (.node xs)) => do
        let segs ← xs.mapM (fun xc =>
          match xc with
          | .cell (.num x) =>
              Except.ok (Tensor.node
                [.node [.cell (.num x), .cell (.num 0)],
                 .node [.cell (.num x), .cell (.num 1)]])
          | _ => Except.error (PyErr.typeErr "expected scalar x offsets"))
        pure (pair.1,
          aset (aremoveAll pair.2 ["offsets"]) "segments" (.tensor (.node segs)))
    | some _ => .error (.typeErr "expected an offsets array")
  else .error (.valueErr "NameError: x_pos referenced before assignment")

/-- Append `value` to each cell of a ragged argument in navigation order,
mutating as the python loop does: on a failure the cells already processed
keep their appended values and the remaining cells are untouched. -/
def appendCells (value : Tensor) : List Tensor → Option PyErr × List Tensor
  | [] => (none, [])
  | c :: cs =>
      match npAppend c value with
      | .ok c2 =>
          match appendCells value cs with
          | (e, cs2) => (e, c2 :: cs2)
      | .error e => (some e, c :: cs)

/-- The key loop of `append_kwarg`: keys are processed in order; an error
stops the loop, leaving earlier keys appended (python raises out of the
mutating loop). -/
def appendKeys (value : Tensor) :
    MarkerState → List String → Option PyErr × MarkerState
  | s, [] => (none, s)
  | s, k :: ks =>
      match aget s.kwargs k with
      | none => (some (.keyErr k), s)
      | some (.ragged r) =>
          match appendCells value r.cells with
          | (some e, cells2) =>
              (some e,
                { s with
                  kwargs := aset s.kwargs k (.ragged { r with cells := cells2 }) })
          | (none, cells2) =>
              appendKeys value
                { s with
                  kwargs := aset s.kwargs k (.ragged { r with cells := cells2 }) }
                ks
      | some (.tensor t) =>
          match npAppend t value with
          | .ok t2 =>
              appendKeys value
                { s with kwargs := aset s.kwargs k (.tensor t2) } ks
          | .error e => (some e, s)
      | some _ => (some (.typeErr "value has no usable dtype"), s)

/-- The `append_kwarg` method: a python scalar has no `len` (TypeError), an
empty value returns immediately with no effect, otherwise the keys are
appended in order with mutation semantics (see `appendKeys`). -/
def append_kwarg (s : MarkerState) (keys : List String) (value : Tensor) :
    Option PyErr × MarkerState :=
  match value with
  | .cell _ => (some (.typeErr "object has no len"), s)
  | .node vs =>
      if vs.length = 0 then (none, s)
      else appendKeys value s keys

/-- The `_to_dictionary` method; note that `shift` is not serialized and the
caches are not captured. -/
structure MarkerRecord where
  marker_type : String
  plot_on_signal : Bool
  offsets_transform : Option String := none
  transform : Option String := none
  collection_class : Option String := none
  kwargs : Option (List (String × PyVal)) := none
  data : Option (List (String × PyVal)) := none
  marker_properties : Option (List (String × PyVal)) := none
deriving DecidableEq

/-- A marker dict as consumed by `markers2collection`: either the empty dict
or a record carrying the mandatory `marker_type`/`plot_on_signal` keys (both
are popped unconditionally by the source) and the optional remainder.
`offsets_transform`/`transform` are popped with default `None`, so key absence
and an explicit python `None` coincide in the `Option`. -/
inductive MarkerDict where
  | empty
  | record (r : MarkerRecord)

/-- Serialize a live marker to its record (`Markers._to_dictionary`). -/
def toDictionary (s : MarkerState) : MarkerRecord :=
  { marker_type := s.marker_type
    plot_on_signal := s.plot_on_signal
    offsets_transform := some s.offsets_transform
    transform := some s.transform
    collection_class := some s.collection_class
    kwargs := some s.kwargs }

mutual

/-- Leaves of a tensor in row-major (np.ndindex) order. -/
def tensorLeaves : Tensor → List PScalar
  | .cell v => [v]
  | .node ts => tensorLeavesList ts

/-- Leaves of a list of tensors. -/
def tensorLeavesList : List Tensor → List PScalar
  | [] => []
  | t :: ts => tensorLeaves t ++ tensorLeavesList ts

end

mutual

/-- Monadic leaf-wise map over a tensor (shape preserved). -/
def tensorMapM (f : PScalar → Except PyErr PScalar) :
    Tensor → Except PyErr Tensor
  | .cell v => do
      let w ← f v
      pure (.cell w)
  | .node ts => do
      let us ← tensorMapListM f ts
      pure (.node us)

/-- Monadic leaf-wise map over a list of tensors. -/
def tensorMapListM (f : PScalar → Except PyErr PScalar) :
    List Tensor → Except PyErr (List Tensor)
  | [] => pure []
  | t :: ts => do
      let u ← tensorMapM f t
      let us ← tensorMapListM f ts
      pure (u :: us)

end

/-- Index a plain tensor at a (possibly partial) multi-index. -/
def tensorGet : Tensor → List Nat → Except PyErr Tensor
  | t, [] => .ok t
  | .node ts, i :: ir =>
      match ts.get? i with
      | some t => tensorGet t ir
      | none => .error .indexErr
  | .cell _, _ :: _ => .error .indexErr

/-- Insert a string into a sorted duplicate-free list (used to model
`np.unique`, which sorts and deduplicates). -/
def insertSorted (x : String) : List String → List String
  | [] => [x]
  | y :: ys =>
      if x < y then x :: y :: ys
      else if x = y then y :: ys
      else y :: insertSorted x ys

/-- String leaves of a keys tensor in row-major order. -/
def strLeaves (keys : Tensor) : List String :=
  (tensorLeaves keys).filterMap (fun v =>
    match v with
    | .str s => some s
    | .num _ => none)

/-- The sorted unique key names of a keys tensor (`np.unique(keys)`). -/
def sortedUniqueStrLeaves (keys : Tensor) : List String :=
  (strLeaves keys).foldl (fun acc k => insertSorted k acc) []

/-- Modelled from the spec-external helper `isiterable`
(`hyperspy.misc.utils`, not under src/): python iterability — arrays, lists
and tuples iterate, bare numbers do not, strings do (callers exclude strings
separately). -/
def isiterable : PyVal → Bool
  | .tensor (.node _) => true
  | .tensor (.cell _) => false
  | .scalar (.str _) => true
  | .scalar (.num _) => false
  | .tup _ => true
  | .pylist _ => true
  | .patches _ => true
  | .ragged _ => true
  | .daskRagged _ _ => true
  | .daskPlain _ => true

/-- Read the scalar value of one legacy field at navigation index `i`: an
iterating field is indexed, a non-iterating one is broadcast (`np.full`). -/
def fieldAt (data : List (String × PyVal)) (k : String) (i : List Nat) :
    Except PyErr PScalar :=
  match aget data k with
  | none => .error (.keyErr k)
  | some v =>
      if isiterable v && ! isStrVal v then
        match v with
        | .tensor t => do
            let c ← tensorGet t i
            match c with
            | .cell sc => pure sc
            | .node _ => .error (.typeErr "field cell is not scalar")
        | .ragged r => do
            let c ← raggedGet r i
            match c with
            | .cell sc => pure sc
            | .node _ => .error (.typeErr "field cell is not scalar")
        | _ => .error (.typeErr "field is not an array")
      else
        match v with
        | .scalar sc => pure sc
        | _ => .error (.typeErr "field is not scalar")

/-- Read one static (non-iterating) legacy field as a leaf of the requested
dtype.  Numbers under `dtype=str` would be stringified by numpy; string
formatting of floats is outside the model and reported as an error. -/
def staticLeaf (data : List (String × PyVal)) (dtypeStr : Bool)
    (leaf : PScalar) : Except PyErr PScalar :=
  match leaf with
  | .num _ => .error (.typeErr "keys must be strings")
  | .str k =>
      match aget data k with
      | none => .error (.keyErr k)
      | some (.scalar v) =>
          if dtypeStr then
            match v with
            | .str t => .ok (.str t)
            | .num _ => .error (.typeErr "number under str dtype not modelled")
          else
            match v with
            | .num q => .ok (.num q)
            | .str _ => .error (.valueErr "could not convert string to float")
      | some _ => .error (.typeErr "field is not scalar")

/-- Enforce a dtype on a scalar read from an iterating field. -/
def dtypeLeaf (dtypeStr : Bool) (sc : PScalar) : Except PyErr PScalar :=
  if dtypeStr then
    match sc with
    | .str t => .ok (.str t)
    | .num _ => .error (.typeErr "number under str dtype not modelled")
  else
    match sc with
    | .num q => .ok (.num q)
    | .str _ => .error (.valueErr "could not convert string to float")

/-- The `size` return value of `dict2vector`: a non-iterable size is returned
as is, an array becomes an object array of its cells. -/
def dict2vectorSize (data : List (String × PyVal)) :
    Except PyErr PyVal :=
  match aget data "size" with
  | none => .error (.keyErr "size")
  | some v =>
      if ¬ isiterable v then pure v
      else
        match v with
        | .tensor t =>
            match tensorShape t with
            | none => .error (.typeErr "inhomogeneous size")
            | some sh => do
                let cells ← (allIdx sh).mapM (fun i => tensorGet t i)
                pure (.ragged { shape := sh, cells := cells })
        | .ragged r => pure (.ragged r)
        | _ => .error (.typeErr "size has no shape")

/-- The `dict2vector` helper: assembles the requested geometry from named
legacy fields.  With no iterable field a plain array shaped like `keys` is
produced; otherwise an object array over the navigation shape whose cells are
shaped like `keys` under `dtype=float` and are the flat row-major leaf list
under `dtype=str` (the python str branch appends leaves into a flat list). -/
def dict2vector (data : List (String × PyVal)) (keys : Tensor)
    (returnSize : Bool) (dtypeStr : Bool) :
    Except PyErr (PyVal × Option PyVal) := do
  let uniq := sortedUniqueStrLeaves keys
  let flags ← uniq.mapM (fun k =>
      match aget data k with
      | some v => Except.ok (k, v, isiterable v && ! isStrVal v)
      | none => Except.error (PyErr.keyErr k))
  let vec ←
    match flags.filter (fun e => e.2.2) with
    | [] => do
        let t ← tensorMapM (staticLeaf data dtypeStr) keys
        pure (PyVal.tensor t)
    | e :: _ => do
        let navShape ←
          match e.2.1 with
          | .tensor t =>
              match tensorShape t with
              | some sh => Except.ok sh
              | none => Except.error (PyErr.typeErr "inhomogeneous field")
          | .ragged r => Except.ok r.shape
          | _ => Except.error (PyErr.typeErr "field has no shape")
        let cells ← (allIdx navShape).mapM (fun i =>
          if dtypeStr then do
            let vs ← (strLeaves keys).mapM (fun k => do
                let sc ← fieldAt data k i
                let sc2 ← dtypeLeaf true sc
                pure (Tensor.cell sc2))
            pure (Tensor.node vs)
          else
            tensorMapM (fun leaf =>
              match leaf with
              | .num _ => Except.error (PyErr.typeErr "keys must be strings")
              | .str k => do
                  let sc ← fieldAt data k i
                  dtypeLeaf false sc) keys)
        pure (PyVal.ragged { shape := navShape, cells := cells })
  if returnSize then do
    let sz ← dict2vectorSize data
    pure (vec, some sz)
  else pure (vec, none)

/-- Result of `markers2collection`: the empty input dict returns an empty
dict, everything else a live marker. -/
inductive M2CResult where
  | emptyDict
  | marker (s : MarkerState)
deriving DecidableEq

/-- Errors escaping `markers2collection`: either an error of an invoked
constructor/helper, or the unknown-kind ValueError of the final `else` (which
the source raises with the unrecognized tag in its message). -/
inductive M2CErr where
  | fromInit (e : PyErr)
  | unknownMarkerKind (tag : String)
deriving DecidableEq

/-- Embed a constructor/helper failure into the reconstruction error type. -/
def liftE {α : Type} : Except PyErr α → Except M2CErr α
  | .ok a => .ok a
  | .error e => .error (.fromInit e)

/-- Python dict access for the optional record fields. -/
def getField {α : Type} (o : Option α) (name : String) : Except PyErr α :=
  match o with
  | some x => .ok x
  | none => .error (.keyErr name)

/-- Bind a required python parameter from a `**kwargs` dict (TypeError when
missing). -/
def bindReq (kw : List (String × PyVal)) (key : String) :
    Except PyErr PyVal :=
  match aget kw key with
  | some v => .ok v
  | none => .error (.typeErr key)

/-- Bind an optional python parameter from a `**kwargs` dict. -/
def bindParam (kw : List (String × PyVal)) (key : String) (dflt : PyVal) :
    PyVal :=
  (aget kw key).getD dflt

/-- Default `angles=(0,)` of the adapter signatures. -/
def anglesDefault : PyVal := .tup [.num 0]

/-- Default `units="x"`. -/
def unitsX : PyVal := .scalar (.str "x")

/-- Default `units="xy"`. -/
def unitsXY : PyVal := .scalar (.str "xy")

/-- Default `facecolors="none"` of `Circles`. -/
def facecolorsNone : PyVal := .scalar (.str "none")

/-- Legacy marker kinds handled by the explicit `if/elif` chain of
`markers2collection`. -/
def legacyKinds : List String :=
  ["Point", "HorizontalLine", "HorizontalLineSegment", "LineSegment",
   "Arrow", "Rectangle", "Ellipse", "Text", "VerticalLine",
   "VerticalLineSegment"]

/-- Marker class names in the `marker_mapping` dispatch table. -/
def mappingKinds : List String :=
  ["Arrows", "Ellipses", "Circles", "HorizontalLines", "Lines", "Points",
   "Polygons", "Rectangles", "Squares", "Texts", "VerticalLines"]

/-- A kind tag `markers2collection` recognizes. -/
def recognizedKind (t : String) : Bool :=
  t ∈ legacyKinds || t ∈ mappingKinds || t = "Markers"

/-- The legacy `Rectangle` corner keys `[[[x1,y1],[x2,y1],[x2,y2],[x1,y2]]]`. -/
def rectangleKeys : Tensor :=
  .node [.node [.node [.cell (.str "x1"), .cell (.str "y1")],
                .node [.cell (.str "x2"), .cell (.str "y1")],
                .node [.cell (.str "x2"), .cell (.str "y2")],
                .node [.cell (.str "x1"), .cell (.str "y2")]]]

/-- The `markers2collection` reconstruction dispatch
(`hyperspy/drawing/markers.py`).  An empty dict returns an empty dict; known
legacy kinds are upgraded through `dict2vector`; recognized class names are
re-instantiated from the record's transforms and kwargs; the final `else`
raises the unknown-kind ValueError.  The closing
`marker.plot_on_signal = plot_on_signal` assignment of the source binds a
fresh python attribute (the live flag is `_plot_on_signal`, untouched), so it
does not alter the modelled state. -/
def markers2collectionRecord (r : MarkerRecord) : Except M2CErr M2CResult :=
  match r.marker_type with
      | "Point" =>
          (liftE (do
            let data ← getField r.data "data"
            let props ← getField r.marker_properties "marker_properties"
            let pr ← dict2vector data (.node [.node [.cell (.str "x1"),
              .cell (.str "x2")]]) true false
            let size ← getField pr.2 "size"
            pointsInit pr.1 size anglesDefault unitsX (some "data") none none
              props)).map .marker
      | "HorizontalLine" =>
          (liftE (do
            let data ← getField r.data "data"
            let props ← getField r.marker_properties "marker_properties"
            let pr ← dict2vector data (.node [.cell (.str "y1")]) false false
            horizontalLinesInit pr.1 none none none props)).map .marker
      | "HorizontalLineSegment" =>
          (liftE (do
            let data ← getField r.data "data"
            let props ← getField r.marker_properties "marker_properties"
            let pr ← dict2vector data (.node [.node
              [.node [.cell (.str "x1"), .cell (.str "y1")],
               .node [.cell (.str "x2"), .cell (.str "y1")]]]) false false
            linesInit pr.1 none none none props)).map .marker
      | "LineSegment" =>
          (liftE (do
            let data ← getField r.data "data"
            let props ← getField r.marker_properties "marker_properties"
            let pr ← dict2vector data (.node [.node
              [.node [.cell (.str "x1"), .cell (.str "y1")],
               .node [.cell (.str "x2"), .cell (.str "y2")]]]) false false
            linesInit pr.1 none none none props)).map .marker
      | "Arrow" =>
          (liftE (do
            let data ← getField r.data "data"
            let props ← getField r.marker_properties "marker_properties"
            let offs ← dict2vector data (.node [.node [.cell (.str "x1"),
              .cell (.str "y1")]]) false false
            let dx ← dict2vector data (.node [.node [.cell (.str "x2")]])
              false false
            let dy ← dict2vector data (.node [.node [.cell (.str "y2")]])
              false false
            arrowsInit offs.1 dx.1 dy.1 none none none props)).map .marker
      | "Rectangle" =>
          (liftE (do
            let data ← getField r.data "data"
            let props ← getField r.marker_properties "marker_properties"
            let pr ← dict2vector data rectangleKeys false false
            markersInit "PolyCollection" (some "data") (some "display") none
              ([("verts", pr.1)] ++ props))).map .marker
      | "Ellipse" =>
          (liftE (do
            let data ← getField r.data "data"
            let props ← getField r.marker_properties "marker_properties"
            let offs ← dict2vector data (.node [.node [.cell (.str "x1"),
              .cell (.str "y1")]]) false false
            let width ← dict2vector data (.node [.cell (.str "x2")]) false false
            let height ← dict2vector data (.node [.cell (.str "y2")]) false false
            ellipsesInit offs.1 height.1 width.1 unitsXY anglesDefault
              (some "data") none none props)).map .marker
      | "Text" =>
          (liftE (do
            let data ← getField r.data "data"
            let props ← getField r.marker_properties "marker_properties"
            let offs ← dict2vector data (.node [.node [.cell (.str "x1"),
              .cell (.str "y1")]]) false false
            let texts ← dict2vector data (.node [.cell (.str "text")])
              false true
            textsInit offs.1 (some "data") none none
              ([("texts", texts.1)] ++ props))).map .marker
      | "VerticalLine" =>
          (liftE (do
            let data ← getField r.data "data"
            let props ← getField r.marker_properties "marker_properties"
            let pr ← dict2vector data (.node [.cell (.str "x1")]) false false
            verticalLinesInit pr.1 none none none props)).map .marker
      | "VerticalLineSegment" =>
          (liftE (do
            let data ← getField r.data "data"
            let props ← getField r.marker_properties "marker_properties"
            let pr ← dict2vector data (.node [.node
              [.node [.cell (.str "x1"), .cell (.str "y1")],
               .node [.cell (.str "x1"), .cell (.str "y2")]]]) false false
            linesInit pr.1 none none none props)).map .marker
      | "Arrows" =>
          (liftE (do
            let kw ← getField r.kwargs "kwargs"
            let offs ← bindReq kw "offsets"
            let u ← bindReq kw "U"
            let v ← bindReq kw "V"
            arrowsInit offs u v (some r.transform) (some r.offsets_transform)
              none (aremoveAll kw ["offsets", "U", "V"]))).map .marker
      | "Ellipses" =>
          (liftE (do
            let kw ← getField r.kwargs "kwargs"
            let offs ← bindReq kw "offsets"
            let hs ← bindReq kw "heights"
            let ws ← bindReq kw "widths"
            ellipsesInit offs hs ws (bindParam kw "units" unitsXY)
              (bindParam kw "angles" anglesDefault) r.offsets_transform
              (some r.transform) none
              (aremoveAll kw ["offsets", "heights", "widths", "units",
                "angles"]))).map .marker
      | "Circles" =>
          (liftE (do
            let kw ← getField r.kwargs "kwargs"
            let offs ← bindReq kw "offsets"
            let sz ← bindReq kw "sizes"
            circlesInit offs sz (bindParam kw "angles" anglesDefault)
              (bindParam kw "units" unitsX)
              (bindParam kw "facecolors" facecolorsNone) r.offsets_transform
              (some r.transform) none
              (aremoveAll kw ["offsets", "sizes", "angles", "units",
                "facecolors"]))).map .marker
      | "HorizontalLines" =>
          (liftE (do
            let kw ← getField r.kwargs "kwargs"
            let offs ← bindReq kw "offsets"
            horizontalLinesInit offs (some r.transform)
              (some r.offsets_transform) none
              (aremoveAll kw ["offsets"]))).map .marker
      | "Lines" =>
          (liftE (do
            let kw ← getField r.kwargs "kwargs"
            let segs ← bindReq kw "segments"
            linesInit segs (some r.transform) (some r.offsets_transform) none
              (aremoveAll kw ["segments"]))).map .marker
      | "Points" =>
          (liftE (do
            let kw ← getField r.kwargs "kwargs"
            let offs ← bindReq kw "offsets"
            let sz ← bindReq kw "sizes"
            pointsInit offs sz (bindParam kw "angles" anglesDefault)
              (bindParam kw "units" unitsX) r.offsets_transform
              (some r.transform) none
              (aremoveAll kw ["offsets", "sizes", "angles",
                "units"]))).map .marker
      | "Polygons" =>
          (liftE (do
            let kw ← getField r.kwargs "kwargs"
            let verts ← bindReq kw "verts"
            polygonsInit verts (some r.transform) (some r.offsets_transform)
              none (aremoveAll kw ["verts"]))).map .marker
      | "Rectangles" =>
          (liftE (do
            let kw ← getField r.kwargs "kwargs"
            let offs ← bindReq kw "offsets"
            let ws ← bindReq kw "widths"
            let hs ← bindReq kw "heights"
            rectanglesInit offs ws hs (bindParam kw "units" unitsXY)
              (bindParam kw "angles" anglesDefault) r.offsets_transform
              (some r.transform) none
              (aremoveAll kw ["offsets", "widths", "heights", "units",
                "angles"]))).map .marker
      | "Squares" =>
          (liftE (do
            let kw ← getField r.kwargs "kwargs"
            let offs ← bindReq kw "offsets"
            let sz ← bindReq kw "sizes"
            squaresInit offs sz (bindParam kw "angles" anglesDefault)
              (bindParam kw "units" unitsX) r.offsets_transform
              (some r.transform) none
              (aremoveAll kw ["offsets", "sizes", "angles",
                "units"]))).map .marker
      | "Texts" =>
          (liftE (do
            let kw ← getField r.kwargs "kwargs"
            let offs ← bindReq kw "offsets"
            textsInit offs r.offsets_transform (some r.transform) none
              (aremoveAll kw ["offsets"]))).map .marker
      | "VerticalLines" =>
          (liftE (do
            let kw ← getField r.kwargs "kwargs"
            let offs ← bindReq kw "offsets"
            verticalLinesInit offs (some r.transform)
              (some r.offsets_transform) none
              (aremoveAll kw ["offsets"]))).map .marker
      | "Markers" =>
          (liftE (do
            let cc ← getField r.collection_class "collection_class"
            let kw ← getField r.kwargs "kwargs"
            markersInit cc r.offsets_transform r.transform none kw)).map
            .marker
      | tag => .error (.unknownMarkerKind tag)

/-- Modelled from the spec: the host's `add_marker(..., plot_on_signal=False)`
(`BaseSignal.add_marker`, outside src/) selects the navigator as the
collection's visibility target by assigning the `_plot_on_signal` flag
(spec §3, `visibility_target`). -/
def setPlotOnSignal (s : MarkerState) (b : Bool) : MarkerState :=
  { s with plot_on_signal := b }

/-- The claim-side notion used by C2: the (leading) shape of an object-dtype
argument value. -/
def raggedShapeOf : PyVal → Option (List Nat)
  | .ragged r => some r.shape
  | .daskRagged _ r => some r.shape
  | _ => none

/-- The `markers2collection` entry point: the empty dict short-circuits to an
empty result before any dispatch. -/
def markers2collection : MarkerDict → Except M2CErr M2CResult
  | .empty => .ok .emptyDict
  | .record r => markers2collectionRecord r


/-- The `HorizontalLines(offsets=[2.0])` collection of the spec's example. -/
def hlExample : MarkerState :=
  { marker_type := "HorizontalLines", collection_class := "LineCollection",
    plot_on_signal := true, offsets_transform := "display",
    transform := "yaxis", shift := none,
    kwargs := [("offsets", .tensor (.node [.cell (.num 2)]))],
    dask_kwargs := [], cacheSlice := [], cacheData := [] }

/-- The `VerticalLines(offsets=[3.0])` collection of the spec's example. -/
def vlExample : MarkerState :=
  { marker_type := "VerticalLines", collection_class := "LineCollection",
    plot_on_signal := true, offsets_transform := "display",
    transform := "xaxis", shift := none,
    kwargs := [("offsets", .tensor (.node [.cell (.num 3)]))],
    dask_kwargs := [], cacheSlice := [], cacheData := [] }

/-- A trivial host context (the line adapters do not consult it). -/
def hostExample : Host := ⟨[], [], [], 0, 1⟩

/-- A navigator-drawn collection with a relative transform, built through the
generic constructor. -/
def c10State : MarkerState :=
  { marker_type := "Markers", collection_class := "LineCollection",
    plot_on_signal := false, offsets_transform := "display",
    transform := "relative", shift := none,
    kwargs := [("segments", .tensor (.node [.node
      [.node [.cell (.num 1), .cell (.num 0)],
       .node [.cell (.num 1), .cell (.num 2)]]]))],
    dask_kwargs := [], cacheSlice := [], cacheData := [] }

/-- Host context for the C10 counterexample: a displayed trace `[3, 4]` on a
unit-scale axis. -/
def c10Host : Host := ⟨[], [], [3, 4], 0, 1⟩

/-- A concrete iterating collection: ragged offsets over navigation shape
`[2]` plus a static color. -/
def c2IterState : MarkerState :=
  { marker_type := "Markers", collection_class := "LineCollection",
    plot_on_signal := true, offsets_transform := "data",
    transform := "display", shift := none,
    kwargs := [("offsets", .ragged ⟨[2],
      [.node [.node [.cell (.num 1), .cell (.num 1)]],
       .node [.node [.cell (.num 2), .cell (.num 2)]]]⟩),
      ("color", .tup [.str "red"])],
    dask_kwargs := [], cacheSlice := [], cacheData := [] }

/-- Host sitting at navigation index 1 of a shape-`[2]` navigation space. -/
def c2HostW : Host := ⟨[1], [2], [], 0, 1⟩

/-- The same ragged collection viewed against a host whose navigation shape is
`[3]`: no argument's shape matches the navigation shape. -/
def c2HostX : Host := ⟨[1], [3], [], 0, 1⟩

/-- The generic collection holding only the shape-`[2]` ragged offsets. -/
def c2MismatchState : MarkerState :=
  { marker_type := "Markers", collection_class := "LineCollection",
    plot_on_signal := true, offsets_transform := "data",
    transform := "display", shift := none,
    kwargs := [("offsets", .ragged ⟨[2],
      [.node [.node [.cell (.num 1), .cell (.num 1)]],
       .node [.node [.cell (.num 2), .cell (.num 2)]]]⟩)],
    dask_kwargs := [], cacheSlice := [], cacheData := [] }

/-- An (n,2) array of points. -/
def pointsTensor (ps : List (ℚ × ℚ)) : Tensor :=
  .node (ps.map (fun p => .node [.cell (.num p.1), .cell (.num p.2)]))

/-- An (n,2,2) array of 2-point segments. -/
def segmentsTensor (ss : List ((ℚ × ℚ) × (ℚ × ℚ))) : Tensor :=
  .node (ss.map (fun sg => .node
    [.node [.cell (.num sg.1.1), .cell (.num sg.1.2)],
     .node [.cell (.num sg.2.1), .cell (.num sg.2.2)]]))

/-- Claim-side maximum of the displayed trace (`np.max(current_data)`). -/
def traceMax (host : Host) : ℚ :=
  match host.trace with
  | [] => 0
  | q :: qs => qs.foldl max q

/-- Claim-side minimum of the displayed trace (`np.min(current_data)`). -/
def traceMin (host : Host) : ℚ :=
  match host.trace with
  | [] => 0
  | q :: qs => qs.foldl min q

/-- The nearest-sample index of an x position is a valid index into the
displayed trace. -/
def xInTrace (host : Host) (x : ℚ) : Prop :=
  0 ≤ npRound ((x - host.axOffset) / host.axScale) ∧
  (npRound ((x - host.axOffset) / host.axScale)).toNat < host.trace.length

/-- The claimed relative-scaled y: the trace value at the rounded sample index
of x, times the stored y, plus `shift * (max - min)` when a shift is set. -/
def scaledY (host : Host) (sh : Option ℚ) (x y : ℚ) : ℚ :=
  host.trace.getD (npRound ((x - host.axOffset) / host.axScale)).toNat 0 * y +
    (match sh with
     | none => 0
     | some c => c * (traceMax host - traceMin host))

instance (host : Host) (x : ℚ) : Decidable (xInTrace host x) := by
  unfold xInTrace
  infer_instance

/-- A concrete relative-transform collection carrying both an offsets and a
segments kwarg, with a configured shift of 1/2. -/
def c5State : MarkerState :=
  { marker_type := "Markers", collection_class := "LineCollection",
    plot_on_signal := true, offsets_transform := "display",
    transform := "relative", shift := some (1 / 2),
    kwargs := [("offsets", .tensor (pointsTensor [(1, 2)])),
      ("segments", .tensor (segmentsTensor [((0, 1), (1, 1))]))],
    dask_kwargs := [], cacheSlice := [], cacheData := [] }

/-- Host displaying the trace `[5, 11]` on a unit-scale axis. -/
def c5Host : Host := ⟨[], [], [5, 11], 0, 1⟩

/-- Sub-arrays of one tensor dimension. -/
def tensorChildren : Tensor → List Tensor
  | .cell _ => []
  | .node ts => ts

/-- A state with two plain array arguments of different trailing shapes, used
to exercise `append_kwarg`: `offsets` of shape (1,2) and `sizes` of shape
(1,). -/
def c9State : MarkerState :=
  { marker_type := "Markers", collection_class := "PolyCollection",
    plot_on_signal := true, offsets_transform := "display",
    transform := "display", shift := none,
    kwargs := [("offsets", .tensor (.node [.node [.cell (.num 1), .cell (.num 1)]])),
               ("sizes", .tensor (.node [.cell (.num 1)]))],
    dask_kwargs := [], cacheSlice := [], cacheData := [] }

/-- The 4-corner polygon `[[x1,y1],[x2,y1],[x2,y2],[x1,y2]]` the legacy
`Rectangle` upgrade builds. -/
def c6Quad (x1 y1 x2 y2 : ℚ) : Tensor :=
  .node [.node [.cell (.num x1), .cell (.num y1)],
         .node [.cell (.num x2), .cell (.num y1)],
         .node [.cell (.num x2), .cell (.num y2)],
         .node [.cell (.num x1), .cell (.num y2)]]

/-- A legacy `Rectangle` record with scalar corner fields. -/
def c6StaticRecord (x1 y1 x2 y2 : ℚ) : MarkerRecord :=
  { marker_type := "Rectangle", plot_on_signal := true,
    data := some [("x1", .scalar (.num x1)), ("y1", .scalar (.num y1)),
                  ("x2", .scalar (.num x2)), ("y2", .scalar (.num y2))],
    marker_properties := some [] }

/-- A legacy `Rectangle` record with per-navigation-position corner fields
over a 2-position navigation shape: corners `(x1,y1,x2,y2)` at position 0 and
`(u1,v1,u2,v2)` at position 1. -/
def c6IterRecord (x1 y1 x2 y2 u1 v1 u2 v2 : ℚ) : MarkerRecord :=
  { marker_type := "Rectangle", plot_on_signal := true,
    data := some [("x1", .tensor (.node [.cell (.num x1), .cell (.num u1)])),
                  ("y1", .tensor (.node [.cell (.num y1), .cell (.num v1)])),
                  ("x2", .tensor (.node [.cell (.num x2), .cell (.num u2)])),
                  ("y2", .tensor (.node [.cell (.num y2), .cell (.num v2)]))],
    marker_properties := some [] }

/-- The marker state a legacy `Rectangle` record upgrades to: a
`PolyCollection`-backed generic marker whose only argument is `verts`. -/
def c6State (v : PyVal) : MarkerState :=
  { marker_type := "Markers", collection_class := "PolyCollection",
    plot_on_signal := true, offsets_transform := "data",
    transform := "display", shift := none, kwargs := [("verts", v)],
    dask_kwargs := [], cacheSlice := [], cacheData := [] }

/-- A marker state with a single lazily-backed (dask object-dtype) kwarg `k`
and empty caches. -/
def c3S (k : String) (chunks : List (List Nat)) (r : Ragged) : MarkerState :=
  { marker_type := "Markers", collection_class := "Collection",
    plot_on_signal := true, offsets_transform := "display",
    transform := "display", shift := none,
    kwargs := [(k, .daskRagged chunks r)], dask_kwargs := [k],
    cacheSlice := [], cacheData := [] }

/-- `c3S` after one cache fill: chunk slice `sl` and materialized block `blk`
cached for `k`. -/
def c3Cached (k : String) (chunks : List (List Nat)) (r : Ragged)
    (sl : List (Nat × Nat)) (blk : Ragged) : MarkerState :=
  { c3S k chunks r with cacheSlice := [(k, sl)], cacheData := [(k, blk)] }

/-- A concrete 4-cell object array over one navigation dimension. -/
def c3R : Ragged :=
  ⟨[4], [.cell (.num 0), .cell (.num 1), .cell (.num 2), .cell (.num 3)]⟩

/-- The non-legacy construction calls the round-trip law quantifies over: the
generic `Markers` class and the eleven recognized marker classes, with
arbitrary argument values and extra kwargs (`shift`, which `_to_dictionary`
does not serialize, is left at its default). -/
inductive BuildSpec where
  | generic (cc : String) (ot tr : Option String)
      (kw : List (String × PyVal))
  | points (o z a u : PyVal) (ot : Option String)
      (ta : Option (Option String)) (rest : List (String × PyVal))
  | circles (o z a u fc : PyVal) (ot : Option String)
      (ta : Option (Option String)) (rest : List (String × PyVal))
  | squares (o z a u : PyVal) (ot : Option String)
      (ta : Option (Option String)) (rest : List (String × PyVal))
  | ellipses (o h w u a : PyVal) (ot : Option String)
      (ta : Option (Option String)) (rest : List (String × PyVal))
  | rectangles (o w h u a : PyVal) (ot : Option String)
      (ta : Option (Option String)) (rest : List (String × PyVal))
  | hlines (o : PyVal) (ta ota : Option (Option String))
      (rest : List (String × PyVal))
  | vlines (o : PyVal) (ta ota : Option (Option String))
      (rest : List (String × PyVal))
  | texts (o : PyVal) (ot : Option String) (ta : Option (Option String))
      (rest : List (String × PyVal))
  | lines (segs : PyVal) (ta ota : Option (Option String))
      (rest : List (String × PyVal))
  | arrows (o u v : PyVal) (ta ota : Option (Option String))
      (rest : List (String × PyVal))
  | polygons (verts : PyVal) (ta ota : Option (Option String))
      (rest : List (String × PyVal))

/-- Run the construction a `BuildSpec` describes. -/
def build : BuildSpec → Except PyErr MarkerState
  | .generic cc ot tr kw => markersInit cc ot tr none kw
  | .points o z a u ot ta rest => pointsInit o z a u ot ta none rest
  | .circles o z a u fc ot ta rest => circlesInit o z a u fc ot ta none rest
  | .squares o z a u ot ta rest => squaresInit o z a u ot ta none rest
  | .ellipses o h w u a ot ta rest => ellipsesInit o h w u a ot ta none rest
  | .rectangles o w h u a ot ta rest =>
      rectanglesInit o w h u a ot ta none rest
  | .hlines o ta ota rest => horizontalLinesInit o ta ota none rest
  | .vlines o ta ota rest => verticalLinesInit o ta ota none rest
  | .texts o ot ta rest => textsInit o ot ta none rest
  | .lines segs ta ota rest => linesInit segs ta ota none rest
  | .arrows o u v ta ota rest => arrowsInit o u v ta ota none rest
  | .polygons verts ta ota rest => polygonsInit verts ta ota none rest

/-- A static `Points` construction for the round-trip witness. -/
def c1SpecStatic : BuildSpec :=
  .points (.tensor (.node [.node [.cell (.num 1), .cell (.num 2)]]))
    (.tup [.num 3]) anglesDefault unitsX (some "display") none []

/-- The marker state `c1SpecStatic` builds. -/
def c1Static : MarkerState :=
  { marker_type := "Points", collection_class := "EllipseCollection",
    plot_on_signal := true, offsets_transform := "display",
    transform := "display", shift := none,
    kwargs := [("offsets",
        .tensor (.node [.node [.cell (.num 1), .cell (.num 2)]])),
      ("sizes", .tup [.num 3]), ("angles", .tup [.num 0]),
      ("units", .scalar (.str "x"))],
    dask_kwargs := [], cacheSlice := [], cacheData := [] }

/-- An iterating `Points` construction (object-dtype offsets over a
2-position navigation shape) for the round-trip witness. -/
def c1SpecIter : BuildSpec :=
  .points (.ragged ⟨[2], [.node [.cell (.num 1), .cell (.num 2)],
      .node [.cell (.num 3), .cell (.num 4)]]⟩)
    (.tup [.num 3]) anglesDefault unitsX (some "display") none []

/-- The marker state `c1SpecIter` builds. -/
def c1Iter : MarkerState :=
  { marker_type := "Points", collection_class := "EllipseCollection",
    plot_on_signal := true, offsets_transform := "display",
    transform := "display", shift := none,
    kwargs := [("offsets", .ragged ⟨[2],
        [.node [.cell (.num 1), .cell (.num 2)],
         .node [.cell (.num 3), .cell (.num 4)]]⟩),
      ("sizes", .tup [.num 3]), ("angles", .tup [.num 0]),
      ("units", .scalar (.str "x"))],
    dask_kwargs := [], cacheSlice := [], cacheData := [] }

/-! Association-list lemmas. -/

theorem aget_aset_self {α : Type} (l : List (String × α)) (k : String) (v : α) :
    aget (aset l k v) k = some v := by
  induction l with
  | nil => simp [aset, aget]
  | cons p t ih =>
      obtain ⟨a, b⟩ := p
      by_cases h : a = k
      · simp [aset, aget, h]
      · simp [aset, aget, h, ih]

theorem aget_aset_ne {α : Type} (l : List (String × α)) (k k' : String) (v : α)
    (h : k ≠ k') : aget (aset l k v) k' = aget l k' := by
  induction l with
  | nil => simp [aset, aget, h]
  | cons p t ih =>
      obtain ⟨a, b⟩ := p
      by_cases ha : a = k
      · subst ha; simp [aset, aget, h]
      · simp [aset, aget, ha, ih]

theorem aget_removeAll {α : Type} (l : List (String × α)) (ks : List String)
    (k : String) :
    aget (aremoveAll l ks) k = if k ∈ ks then none else aget l k := by
  induction l with
  | nil => simp [aremoveAll, aget]
  | cons p t ih =>
      obtain ⟨a, b⟩ := p
      by_cases hm : a ∈ ks
      · by_cases hk : a = k
        · subst hk; simp [aremoveAll, aget, hm, ih]
        · simp [aremoveAll, aget, hm, hk, ih]
      · by_cases hk : a = k
        · subst hk; simp [aremoveAll, aget, hm, ih]
        · simp [aremoveAll, aget, hm, hk, ih]

theorem aget_removeAll_not_mem {α : Type} (l : List (String × α))
    (ks : List String) (k : String) (h : k ∉ ks) :
    aget (aremoveAll l ks) k = aget l k := by
  rw [aget_removeAll]
  simp [h]

theorem aget_append {α : Type} (l1 l2 : List (String × α)) (k : String) :
    aget (l1 ++ l2) k =
      match aget l1 k with
      | some v => some v
      | none => aget l2 k := by
  induction l1 with
  | nil => simp [aget]
  | cons p t ih =>
      obtain ⟨a, b⟩ := p
      by_cases h : a = k <;> simp [aget, h, ih]

theorem aget_map_normPair (l : List (String × PyVal)) (k : String) :
    aget (l.map normPair) k = (aget l k).map (normalizeKwarg k) := by
  induction l with
  | nil => simp [aget]
  | cons p t ih =>
      obtain ⟨a, b⟩ := p
      by_cases h : a = k
      · subst h; simp [aget, normPair]
      · simp [aget, normPair, h, ih]

theorem akeys_map_normPair (l : List (String × PyVal)) :
    akeys (l.map normPair) = akeys l := by
  induction l with
  | nil => rfl
  | cons p t ih =>
      obtain ⟨a, b⟩ := p
      simp [akeys, normPair]

/-! Normalization idempotence. -/

theorem convertKwarg_idem (k : String) (v : PyVal) :
    convertKwarg k (convertKwarg k v) = convertKwarg k v := by
  cases v with
  | tensor t => rfl
  | scalar w => rfl
  | tup vs => rfl
  | pylist t =>
      cases t with
      | cell w => rfl
      | node ts =>
          cases ts with
          | nil => rfl
          | cons a l =>
              by_cases hv : k = "verts" <;> simp [convertKwarg, hv]
  | patches n => cases n with
      | zero => rfl
      | succ m => rfl
  | ragged r => rfl
  | daskRagged c r => rfl
  | daskPlain t => rfl

theorem hasLen_convertKwarg (k : String) (v : PyVal) (h : hasLen v = true) :
    hasLen (convertKwarg k v) = true := by
  cases v with
  | pylist t =>
      cases t with
      | cell w => simp [convertKwarg, hasLen]
      | node ts =>
          cases ts with
          | nil => simp [convertKwarg, hasLen]
          | cons a l =>
              by_cases hv : k = "verts" <;> simp [convertKwarg, hasLen, hv]
  | patches n => cases n with
      | zero => simp [convertKwarg, hasLen]
      | succ m => simp [convertKwarg, hasLen]
  | scalar w => cases w <;> simp_all [convertKwarg, hasLen]
  | tensor t => simp [convertKwarg, hasLen]
  | tup vs => simp [convertKwarg, hasLen]
  | ragged r => simp [convertKwarg, hasLen]
  | daskRagged c r => simp [convertKwarg, hasLen]
  | daskPlain t => simp [convertKwarg, hasLen]

theorem isStrVal_convertKwarg (k : String) (v : PyVal)
    (h : isStrVal v = false) : isStrVal (convertKwarg k v) = false := by
  cases v with
  | pylist t =>
      cases t with
      | cell w => simp [convertKwarg, isStrVal]
      | node ts =>
          cases ts with
          | nil => simp [convertKwarg, isStrVal]
          | cons a l =>
              by_cases hv : k = "verts" <;> simp [convertKwarg, isStrVal, hv]
  | patches n => cases n with
      | zero => simp [convertKwarg, isStrVal]
      | succ m => simp [convertKwarg, isStrVal]
  | scalar w => cases w <;> simp_all [convertKwarg, isStrVal]
  | tensor t => simp [convertKwarg, isStrVal]
  | tup vs => simp [convertKwarg, isStrVal]
  | ragged r => simp [convertKwarg, isStrVal]
  | daskRagged c r => simp [convertKwarg, isStrVal]
  | daskPlain t => simp [convertKwarg, isStrVal]

theorem normalizeKwarg_eq_wrap (k : String) (v : PyVal)
    (hC : (k = "sizes" ∨ k = "color") ∧ (¬ hasLen v ∨ isStrVal v)) :
    normalizeKwarg k v = wrapTuple v := by
  unfold normalizeKwarg
  rw [if_pos hC]

theorem normalizeKwarg_eq_wrap_s (k : String) (v : PyVal)
    (hC : ¬ ((k = "sizes" ∨ k = "color") ∧ (¬ hasLen v ∨ isStrVal v)))
    (hC2 : k = "s" ∧ isStrVal v) :
    normalizeKwarg k v = wrapTuple v := by
  unfold normalizeKwarg
  rw [if_neg hC, if_pos hC2]

theorem normalizeKwarg_eq_convert (k : String) (v : PyVal)
    (hC : ¬ ((k = "sizes" ∨ k = "color") ∧ (¬ hasLen v ∨ isStrVal v)))
    (hC2 : ¬ (k = "s" ∧ isStrVal v)) :
    normalizeKwarg k v = convertKwarg k v := by
  unfold normalizeKwarg
  rw [if_neg hC, if_neg hC2]

theorem normalizeKwarg_tup (k : String) (vs : List PScalar) :
    normalizeKwarg k (.tup vs) = .tup vs := by
  rw [normalizeKwarg_eq_convert]
  · rfl
  · intro h
    rcases h with ⟨_, h⟩
    rcases h with h | h <;> simp [hasLen, isStrVal] at h
  · intro h
    simp [isStrVal] at h

theorem normalizeKwarg_idem (k : String) (v : PyVal) :
    normalizeKwarg k (normalizeKwarg k v) = normalizeKwarg k v := by
  by_cases hC : (k = "sizes" ∨ k = "color") ∧ (¬ hasLen v ∨ isStrVal v)
  · rw [normalizeKwarg_eq_wrap k v hC]
    rcases hC with ⟨hk, hl⟩
    cases v with
    | scalar w => cases w <;> exact normalizeKwarg_tup k _
    | tensor t =>
        cases t with
        | cell w => exact normalizeKwarg_tup k _
        | node ts => rcases hl with h | h <;> simp [hasLen, isStrVal] at h
    | tup vs => rcases hl with h | h <;> simp [hasLen, isStrVal] at h
    | pylist t => rcases hl with h | h <;> simp [hasLen, isStrVal] at h
    | patches n => rcases hl with h | h <;> simp [hasLen, isStrVal] at h
    | ragged r => rcases hl with h | h <;> simp [hasLen, isStrVal] at h
    | daskRagged c r => rcases hl with h | h <;> simp [hasLen, isStrVal] at h
    | daskPlain t => rcases hl with h | h <;> simp [hasLen, isStrVal] at h
  · by_cases hC2 : k = "s" ∧ isStrVal v
    · rw [normalizeKwarg_eq_wrap_s k v hC hC2]
      obtain ⟨hk, hsv⟩ := hC2
      cases v with
      | scalar w =>
          cases w with
          | num q => simp [isStrVal] at hsv
          | str t => exact normalizeKwarg_tup k _
      | tensor t => simp [isStrVal] at hsv
      | tup vs => simp [isStrVal] at hsv
      | pylist t => simp [isStrVal] at hsv
      | patches n => simp [isStrVal] at hsv
      | ragged r => simp [isStrVal] at hsv
      | daskRagged c r => simp [isStrVal] at hsv
      | daskPlain t => simp [isStrVal] at hsv
    · rw [normalizeKwarg_eq_convert k v hC hC2]
      have hC' : ¬ ((k = "sizes" ∨ k = "color") ∧
          (¬ hasLen (convertKwarg k v) ∨ isStrVal (convertKwarg k v))) := by
        rintro ⟨hk', hl'⟩
        have hv1 : hasLen v = true := by
          by_contra hco
          exact hC ⟨hk', Or.inl (by simpa using hco)⟩
        have hv2 : isStrVal v = false := by
          by_contra hco
          exact hC ⟨hk', Or.inr (by simpa using hco)⟩
        have h1 := hasLen_convertKwarg k v hv1
        have h2 := isStrVal_convertKwarg k v hv2
        rcases hl' with h | h
        · exact h (by simpa using h1)
        · simp [h2] at h
      have hC2' : ¬ (k = "s" ∧ isStrVal (convertKwarg k v)) := by
        rintro ⟨hk', hsv'⟩
        have hv2 : isStrVal v = false := by
          by_contra hco
          exact hC2 ⟨hk', by simpa using hco⟩
        have h2 := isStrVal_convertKwarg k v hv2
        simp [h2] at hsv'
      rw [normalizeKwarg_eq_convert k _ hC' hC2', convertKwarg_idem]

theorem map_normPair_idem (l : List (String × PyVal)) :
    (l.map normPair).map normPair = l.map normPair := by
  induction l with
  | nil => rfl
  | cons p t ih =>
      obtain ⟨a, b⟩ := p
      simp [normPair, normalizeKwarg_idem, ih]

/-! Characterization of construction. -/

theorem markersInitCore_ok (mt cc : String) (ot tr : Option String)
    (sh : Option ℚ) (kw : List (String × PyVal)) (s : MarkerState)
    (h : markersInitCore mt cc ot tr sh kw = .ok s) :
    validCollectionClass cc = true ∧
    ¬ (ot = some "data" ∧ (tr = some "axes" ∨ tr = some "data")) ∧
    (ot.getD "None") ∈ allowedTransforms ∧
    (tr.getD "None") ∈ allowedTransforms ∧
    s = { marker_type := mt, collection_class := cc, plot_on_signal := true,
          offsets_transform := ot.getD "None", transform := tr.getD "None",
          shift := sh, kwargs := kw.map normPair,
          dask_kwargs :=
            ((kw.map normPair).filter (fun p => isDaskObj p.2)).map Prod.fst,
          cacheSlice := [], cacheData := [] } := by
  unfold markersInitCore at h
  split_ifs at h with h1 h2 h3 h4
  injection h with h
  subst h
  exact ⟨h1, h2, h3, h4, rfl⟩

theorem markersInitCore_builds (mt cc : String) (ot tr : Option String)
    (sh : Option ℚ) (kw : List (String × PyVal))
    (h1 : validCollectionClass cc = true)
    (h2 : ¬ (ot = some "data" ∧ (tr = some "axes" ∨ tr = some "data")))
    (h3 : (ot.getD "None") ∈ allowedTransforms)
    (h4 : (tr.getD "None") ∈ allowedTransforms) :
    markersInitCore mt cc ot tr sh kw = .ok
      { marker_type := mt, collection_class := cc, plot_on_signal := true,
        offsets_transform := ot.getD "None", transform := tr.getD "None",
        shift := sh, kwargs := kw.map normPair,
        dask_kwargs :=
          ((kw.map normPair).filter (fun p => isDaskObj p.2)).map Prod.fst,
        cacheSlice := [], cacheData := [] } := by
  unfold markersInitCore
  rw [if_neg (by simp [h1]), if_neg h2, if_neg (by simp [h3]),
    if_neg (by simp [h4])]

/-! Reduction of the draw-time query on its main paths. -/

theorem get_data_position_static (s : MarkerState) (host : Host)
    (gs gm : Bool) (hni : s.isIterating = false)
    (hrel : ¬ (s.offsets_transform = "relative" ∨ s.transform = "relative")) :
    get_data_position s host gs gm = .ok (s, s.kwargs) := by
  unfold get_data_position
  simp [hni, hrel, pure, Except.pure, Bind.bind, Except.bind]

theorem normalizeKwarg_tensor (k : String) (t : Tensor) :
    normalizeKwarg k (.tensor t) = .tensor t := by
  rw [normalizeKwarg_eq_convert]
  · rfl
  · rintro ⟨-, h⟩
    rcases h with h | h <;> simp [hasLen, isStrVal] at h
  · rintro ⟨-, h⟩
    simp [isStrVal] at h

theorem normalizeKwarg_ragged (k : String) (r : Ragged) :
    normalizeKwarg k (.ragged r) = .ragged r := by
  rw [normalizeKwarg_eq_convert]
  · rfl
  · rintro ⟨-, h⟩
    rcases h with h | h <;> simp [hasLen, isStrVal] at h
  · rintro ⟨-, h⟩
    simp [isStrVal] at h

theorem normalizeKwarg_daskRagged (k : String) (c : List (List Nat))
    (r : Ragged) : normalizeKwarg k (.daskRagged c r) = .daskRagged c r := by
  rw [normalizeKwarg_eq_convert]
  · rfl
  · rintro ⟨-, h⟩
    rcases h with h | h <;> simp [hasLen, isStrVal] at h
  · rintro ⟨-, h⟩
    simp [isStrVal] at h

theorem mapM_ok_of_map {α β γ : Type} (f : α → β) (g : β → Except PyErr γ)
    (hfun : α → γ) (hg : ∀ a, g (f a) = .ok (hfun a)) (l : List α) :
    (l.map f).mapM g = .ok (l.map hfun) := by
  induction l with
  | nil => rfl
  | cons a t ih =>
      simp only [List.map_cons, List.mapM_cons, hg a, ih]
      rfl

/-! Field characterizations of the line adapters. -/

theorem hl_init_fields (off : PyVal) (trA otA : Option (Option String))
    (shift : Option ℚ) (rest : List (String × PyVal)) (s : MarkerState)
    (h : horizontalLinesInit off trA otA shift rest = .ok s) :
    s = { marker_type := "HorizontalLines",
          collection_class := "LineCollection", plot_on_signal := true,
          offsets_transform := "display", transform := "yaxis",
          shift := shift, kwargs := ([("offsets", off)] ++ rest).map normPair,
          dask_kwargs := ((([("offsets", off)] ++ rest).map normPair).filter
            (fun p => isDaskObj p.2)).map Prod.fst,
          cacheSlice := [], cacheData := [] } := by
  unfold horizontalLinesInit at h
  split_ifs at h
  obtain ⟨-, -, -, -, hs⟩ := markersInitCore_ok _ _ _ _ _ _ _ h
  simpa using hs

theorem vl_init_fields (off : PyVal) (trA otA : Option (Option String))
    (shift : Option ℚ) (rest : List (String × PyVal)) (s : MarkerState)
    (h : verticalLinesInit off trA otA shift rest = .ok s) :
    s = { marker_type := "VerticalLines",
          collection_class := "LineCollection", plot_on_signal := true,
          offsets_transform := "display", transform := "xaxis",
          shift := shift, kwargs := ([("offsets", off)] ++ rest).map normPair,
          dask_kwargs := ((([("offsets", off)] ++ rest).map normPair).filter
            (fun p => isDaskObj p.2)).map Prod.fst,
          cacheSlice := [], cacheData := [] } := by
  unfold verticalLinesInit at h
  split_ifs at h
  obtain ⟨-, -, -, -, hs⟩ := markersInitCore_ok _ _ _ _ _ _ _ h
  simpa using hs

/-- Claim C4: for every list of y-offsets the HorizontalLines adapter's
draw-time geometry maps each y value to the 2-point segment `[[0,y],[1,y]]`
(x in axes fraction 0..1), and for every list of x-offsets the VerticalLines
adapter maps each x value to `[[x,0],[x,1]]`; the `offsets` key is replaced by
the produced `segments`. -/
theorem c4_hv_line_geometry (ys xs : List ℚ)
    (restH restV : List (String × PyVal))
    (trA otA trB otB : Option (Option String)) (shA shB : Option ℚ)
    (host : Host) (sh sv : MarkerState)
    (hh : horizontalLinesInit
        (.tensor (.node (ys.map (fun y => .cell (.num y))))) trA otA shA
        restH = .ok sh)
    (hhi : sh.isIterating = false)
    (hv : verticalLinesInit
        (.tensor (.node (xs.map (fun x => .cell (.num x))))) trB otB shB
        restV = .ok sv)
    (hvi : sv.isIterating = false) :
    (∃ kw, hlGetDataPosition sh host true true = .ok (sh, kw) ∧
       aget kw "segments" = some (.tensor (.node (ys.map (fun y =>
         .node [.node [.cell (.num 0), .cell (.num y)],
                .node [.cell (.num 1), .cell (.num y)]])))) ∧
       aget kw "offsets" = none) ∧
    (∃ kw, vlGetDataPosition sv host true true = .ok (sv, kw) ∧
       aget kw "segments" = some (.tensor (.node (xs.map (fun x =>
         .node [.node [.cell (.num x), .cell (.num 0)],
                .node [.cell (.num x), .cell (.num 1)]])))) ∧
       aget kw "offsets" = none) := by
  have hsfield := hl_init_fields _ _ _ _ _ _ hh
  have hvfield := vl_init_fields _ _ _ _ _ _ hv
  constructor
  · refine ⟨aset (aremoveAll sh.kwargs ["offsets"]) "segments"
      (.tensor (.node (ys.map (fun y =>
        .node [.node [.cell (.num 0), .cell (.num y)],
               .node [.cell (.num 1), .cell (.num y)]])))), ?_, ?_, ?_⟩
    · unfold hlGetDataPosition
      rw [get_data_position_static sh host true true hhi (by
        rw [hsfield]; simp)]
      have hkw : aget sh.kwargs "offsets" =
          some (.tensor (.node (ys.map (fun y => .cell (.num y))))) := by
        rw [hsfield]
        simp [aget, normPair, normalizeKwarg_tensor]
      simp only [Bind.bind, Except.bind, hkw]
      rw [mapM_ok_of_map (fun y => Tensor.cell (.num y))
        _ (fun y => Tensor.node [.node [.cell (.num 0), .cell (.num y)],
          .node [.cell (.num 1), .cell (.num y)]]) (fun y => rfl) ys]
      rfl
    · rw [aget_aset_self]
    · rw [aget_aset_ne _ _ _ _ (by decide), aget_removeAll]
      simp
  · refine ⟨aset (aremoveAll sv.kwargs ["offsets"]) "segments"
      (.tensor (.node (xs.map (fun x =>
        .node [.node [.cell (.num x), .cell (.num 0)],
               .node [.cell (.num x), .cell (.num 1)]])))), ?_, ?_, ?_⟩
    · unfold vlGetDataPosition
      rw [get_data_position_static sv host true true hvi (by
        rw [hvfield]; simp)]
      have hkw : aget sv.kwargs "offsets" =
          some (.tensor (.node (xs.map (fun x => .cell (.num x))))) := by
        rw [hvfield]
        simp [aget, normPair, normalizeKwarg_tensor]
      simp only [Bind.bind, Except.bind, hkw]
      rw [mapM_ok_of_map (fun x => Tensor.cell (.num x))
        _ (fun x => Tensor.node [.node [.cell (.num x), .cell (.num 0)],
          .node [.cell (.num x), .cell (.num 1)]]) (fun x => rfl) xs]
      rfl
    · rw [aget_aset_self]
    · rw [aget_aset_ne _ _ _ _ (by decide), aget_removeAll]
      simp

/-- Witness for C4 at the spec's concrete inputs: `HorizontalLines([2.0])`
yields segments `[[[0,2],[1,2]]]` and `VerticalLines([3.0])` yields
`[[[3,0],[3,1]]]`. -/
theorem c4_hv_line_geometry_witness :
    (∃ kw, hlGetDataPosition hlExample hostExample true true =
        .ok (hlExample, kw) ∧
      aget kw "segments" = some (.tensor (.node [.node
        [.node [.cell (.num 0), .cell (.num 2)],
         .node [.cell (.num 1), .cell (.num 2)]]])) ∧
      aget kw "offsets" = none) ∧
    (∃ kw, vlGetDataPosition vlExample hostExample true true =
        .ok (vlExample, kw) ∧
      aget kw "segments" = some (.tensor (.node [.node
        [.node [.cell (.num 3), .cell (.num 0)],
         .node [.cell (.num 3), .cell (.num 1)]]])) ∧
      aget kw "offsets" = none) :=
  c4_hv_line_geometry [2] [3] [] [] none none none none none none
    hostExample hlExample vlExample rfl rfl rfl rfl

/-- Claim C8: constructing a marker collection with
`offsets_transform="data"` together with `transform` in `{"data","axes"}`
fails at construction (no object is produced), while every other combination
of recognized transform tags is accepted. -/
theorem c8_transform_conflict (ot tr : String)
    (hot : ot ∈ allowedTransforms) (htr : tr ∈ allowedTransforms)
    (cc : String) (hcc : validCollectionClass cc = true)
    (sh : Option ℚ) (kw : List (String × PyVal))
    (hkw : ∀ p ∈ kw, p.1 ∉ markersReserved) :
    (ot = "data" ∧ (tr = "data" ∨ tr = "axes") →
      markersInit cc (some ot) (some tr) sh kw =
        .error .transformConflict) ∧
    (¬ (ot = "data" ∧ (tr = "data" ∨ tr = "axes")) →
      ∃ s, markersInit cc (some ot) (some tr) sh kw = .ok s) := by
  have hres : ¬ (kw.any (fun p => p.1 ∈ markersReserved) = true) := by
    simp only [List.any_eq_true]
    rintro ⟨p, hp, hmem⟩
    exact hkw p hp (by simpa using hmem)
  constructor
  · rintro ⟨h1, h2⟩
    unfold markersInit
    rw [if_neg hres]
    unfold markersInitCore
    rw [if_neg (by simp [hcc]), if_pos]
    refine ⟨by rw [h1], ?_⟩
    rcases h2 with h2 | h2
    · exact Or.inr (by rw [h2])
    · exact Or.inl (by rw [h2])
  · intro hno
    have hb := markersInitCore_builds "Markers" cc (some ot) (some tr) sh kw
      hcc (by
        rintro ⟨h1, h2⟩
        refine hno ⟨by injection h1, ?_⟩
        rcases h2 with h2 | h2
        · exact Or.inr (by injection h2)
        · exact Or.inl (by injection h2))
      (by simpa using hot) (by simpa using htr)
    exact ⟨_, by unfold markersInit; rw [if_neg hres]; exact hb⟩

/-- Witness for C8: `offsets_transform="data"` with `transform="axes"` is
rejected, while `offsets_transform="data"` with `transform="display"` builds
an object. -/
theorem c8_transform_conflict_witness :
    markersInit "LineCollection" (some "data") (some "axes") none [] =
      .error .transformConflict ∧
    ∃ s, markersInit "LineCollection" (some "data") (some "display") none [] =
      .ok s :=
  ⟨(c8_transform_conflict "data" "axes" (by decide) (by decide)
      "LineCollection" (by decide) none [] (by simp)).1 ⟨rfl, Or.inr rfl⟩,
   (c8_transform_conflict "data" "display" (by decide) (by decide)
      "LineCollection" (by decide) none [] (by simp)).2
     (by rintro ⟨-, h | h⟩ <;> exact absurd h (by decide))⟩

theorem liftE_map_ne_unknown {α : Type} (x : Except PyErr α)
    (f : α → M2CResult) (t : String) :
    (liftE x).map f ≠ .error (.unknownMarkerKind t) := by
  cases x <;> simp [liftE, Except.map]

/-- Claim C7: reconstruction fails with the unknown-kind error, reporting the
unrecognized tag, exactly when the dict is non-empty and its kind is neither a
legacy kind nor a recognized class name (so no marker is constructed there);
the empty dict yields the empty result rather than an error. -/
theorem c7_unknown_kind :
    markers2collection .empty = .ok .emptyDict ∧
    ∀ (r : MarkerRecord) (t : String),
      markers2collection (.record r) = .error (.unknownMarkerKind t) ↔
        (r.marker_type = t ∧ recognizedKind t = false) := by
  refine ⟨rfl, ?_⟩
  intro r t
  show markers2collectionRecord r = _ ↔ _
  constructor
  · intro h
    unfold markers2collectionRecord at h
    split at h
    all_goals try exact absurd h (liftE_map_ne_unknown _ _ _)
    injection h with h
    injection h with h
    subst h
    refine ⟨rfl, ?_⟩
    simp only [recognizedKind, legacyKinds, mappingKinds]
    simp_all
  · rintro ⟨h1, h2⟩
    subst h1
    unfold markers2collectionRecord
    split
    all_goals
      simp only [recognizedKind, legacyKinds, mappingKinds] at h2
      simp_all

/-- Amended claim C10: a collection drawn on the navigator
(`_plot_on_signal = False`) is never iterating, whatever its argument values;
and provided no relative transform is active its current-values query returns
the stored kwargs verbatim (a relative transform still rescales
offsets/segments at draw time). -/
theorem c10_navigator_never_iterating (s : MarkerState) (host : Host)
    (gs gm : Bool) (hnav : s.plot_on_signal = false) :
    s.isIterating = false ∧
    (s.offsets_transform ≠ "relative" → s.transform ≠ "relative" →
      get_data_position s host gs gm = .ok (s, s.kwargs)) := by
  have hni : s.isIterating = false := by
    simp [MarkerState.isIterating, hnav]
  refine ⟨hni, ?_⟩
  intro h1 h2
  refine get_data_position_static s host gs gm hni ?_
  rintro (h | h)
  · exact h1 h
  · exact h2 h

/-- Witness for the amended C10 at a concrete navigator-drawn collection. -/
theorem c10_navigator_never_iterating_witness :
    c10State.isIterating = false ∧
    ("display" : String) ≠ "relative" := by
  refine ⟨(c10_navigator_never_iterating c10State c10Host true true rfl).1,
    by decide⟩

/-- Counterexample to C10 as stated: for a navigator-drawn collection with a
relative transform the current-values query does not return the stored
argument mapping verbatim — the segment y-components are rescaled by the
displayed trace. -/
theorem c10_counterexample :
    (markersInit "LineCollection" (some "display") (some "relative") none
        [("segments", .tensor (.node [.node
          [.node [.cell (.num 1), .cell (.num 0)],
           .node [.cell (.num 1), .cell (.num 2)]]]))]).map
      (fun s1 => setPlotOnSignal s1 false) = .ok c10State ∧
    c10State.plot_on_signal = false ∧
    get_data_position c10State c10Host true true ≠
      .ok (c10State, c10State.kwargs) := by
  refine ⟨rfl, rfl, ?_⟩
  intro h
  rw [show get_data_position c10State c10Host true true = .ok (c10State,
    [("segments", .tensor (.node [.node
      [.node [.cell (.num 1), .cell (.num 0)],
       .node [.cell (.num 1), .cell (.num 8)]]]))]) by
    with_unfolding_all decide] at h
  injection h with h
  injection h with h1 h2
  simp [c10State] at h2

theorem raggedOf_of_is_iterating (v : PyVal) (h : is_iterating v = true) :
    ∃ r, raggedOf v = some r := by
  cases v <;> simp [is_iterating] at h <;> simp [raggedOf]

/-- The iterating loop of `get_data_position` over a kwargs list with no
lazily-backed keys: each object-dtype argument is replaced by its selected
cell, every other argument is kept verbatim. -/
theorem selectEntry_fold (indices : List Nat) (g : String → Tensor)
    (l : List (String × PyVal)) (acc : List (String × PyVal))
    (hg : ∀ p ∈ l, ∀ r, raggedOf p.2 = some r →
      raggedGet r indices = .ok (g p.1)) :
    l.foldlM (selectEntry [] indices true) acc =
      .ok (acc ++ l.map (fun p =>
        if is_iterating p.2 then
          (p.1,
            match g p.1 with
            | .cell sc =>
                if p.1 = "sizes" ∨ p.1 = "color" then PyVal.tup [sc]
                else .tensor (.cell sc)
            | .node ts => .tensor (.node ts))
        else p)) := by
  induction l generalizing acc with
  | nil => simp [pure, Except.pure]
  | cons p t ih =>
      by_cases hit : is_iterating p.2 = true
      · obtain ⟨r, hr⟩ := raggedOf_of_is_iterating p.2 hit
        have hsel : selectEntry [] indices true acc p =
            .ok (acc ++ [(p.1,
              match g p.1 with
              | .cell sc =>
                  if p.1 = "sizes" ∨ p.1 = "color" then PyVal.tup [sc]
                  else .tensor (.cell sc)
              | .node ts => .tensor (.node ts))]) := by
          unfold selectEntry selectIterVal
          rw [if_pos hit, if_neg (by simp), hr]
          simp only [Bind.bind, Except.bind, hg p (by simp) r hr]
          cases g p.1 with
          | cell sc =>
              by_cases hsz : (p.1 = "sizes" ∨ p.1 = "color") <;>
                simp [hsz, pure, Except.pure]
          | node ts => rfl
        rw [List.foldlM_cons, hsel]
        show t.foldlM (selectEntry [] indices true) _ = _
        rw [ih _ (fun q hq => hg q (by simp [hq]))]
        simp [hit, List.append_assoc]
      · have hsel : selectEntry [] indices true acc p = .ok (acc ++ [p]) := by
          unfold selectEntry
          rw [if_neg (by simpa using hit)]
          rfl
        rw [List.foldlM_cons, hsel]
        show t.foldlM (selectEntry [] indices true) _ = _
        rw [ih _ (fun q hq => hg q (by simp [hq]))]
        simp [hit, List.append_assoc]

/-- Amended claim C2: a signal-drawn collection is iterating iff no relative
transform is active and at least one of its stored argument values is an
object-dtype (ragged) array — regardless of that array's shape relative to
the host's navigation shape; and when it is iterating (with no lazily-backed
arguments) the current-values query selects element `indices` from each such
ragged argument (wrapping a scalar `sizes`/`color` cell into a one-element
tuple) and returns every non-iterating argument verbatim. -/
theorem c2_iterating_detection (s : MarkerState) (host : Host)
    (g : String → Tensor) (hsig : s.plot_on_signal = true) :
    (s.isIterating = true ↔
      (¬ (s.transform = "relative" ∨ s.offsets_transform = "relative") ∧
       ∃ p ∈ s.kwargs, is_iterating p.2 = true)) ∧
    (s.isIterating = true → s.dask_kwargs = [] →
      (∀ p ∈ s.kwargs, ∀ r, raggedOf p.2 = some r →
        raggedGet r host.indices.reverse = .ok (g p.1)) →
      get_data_position s host true true = .ok (s,
        s.kwargs.map (fun p =>
          if is_iterating p.2 then
            (p.1,
              match g p.1 with
              | .cell sc =>
                  if p.1 = "sizes" ∨ p.1 = "color" then PyVal.tup [sc]
                  else .tensor (.cell sc)
              | .node ts => .tensor (.node ts))
          else p))) := by
  have hiff : s.isIterating = true ↔
      (¬ (s.transform = "relative" ∨ s.offsets_transform = "relative") ∧
       ∃ p ∈ s.kwargs, is_iterating p.2 = true) := by
    unfold MarkerState.isIterating
    split_ifs with h1
    · simp [h1]
    · simp [hsig, h1, List.any_eq_true]
  refine ⟨hiff, ?_⟩
  intro hit hdask hg
  have hrel := (hiff.mp hit).1
  unfold get_data_position
  rw [hit, hdask]
  simp only [Bind.bind, Except.bind, if_pos rfl, List.isEmpty_nil, if_true]
  rw [show s.kwargs.foldlM (selectEntry [] host.indices.reverse true) [] =
    .ok (([] : List (String × PyVal)) ++ s.kwargs.map (fun p =>
      if is_iterating p.2 then
        (p.1,
          match g p.1 with
          | .cell sc =>
              if p.1 = "sizes" ∨ p.1 = "color" then PyVal.tup [sc]
              else .tensor (.cell sc)
          | .node ts => .tensor (.node ts))
      else p)) from selectEntry_fold host.indices.reverse g s.kwargs [] hg]
  simp only [Bind.bind, Except.bind, pure, Except.pure]
  rw [if_neg (show ¬ (True ∧
      (s.offsets_transform = "relative" ∨ s.transform = "relative")) by
    rintro ⟨-, h | h⟩
    · exact hrel (Or.inr h)
    · exact hrel (Or.inl h))]
  simp

/-- Witness for the amended C2: the concrete collection is iterating, and its
current values select cell 1 of the ragged offsets while returning the color
verbatim. -/
theorem c2_iterating_detection_witness :
    c2IterState.isIterating = true ∧
    get_data_position c2IterState c2HostW true true = .ok (c2IterState,
      [("offsets", .tensor (.node [.node [.cell (.num 2), .cell (.num 2)]])),
       ("color", .tup [.str "red"])]) := by
  have h := c2_iterating_detection c2IterState c2HostW
    (fun _ => Tensor.node [.node [.cell (.num 2), .cell (.num 2)]]) rfl
  refine ⟨rfl, ?_⟩
  have hg : ∀ p ∈ c2IterState.kwargs, ∀ r, raggedOf p.2 = some r →
      raggedGet r c2HostW.indices.reverse = .ok
        ((fun _ => Tensor.node [.node [.cell (.num 2), .cell (.num 2)]])
          p.1) := by
    intro p hp r hr
    simp only [c2IterState, List.mem_cons, List.mem_singleton] at hp
    rcases hp with rfl | rfl | hp
    · injection hr with hr
      subst hr
      decide
    · simp [raggedOf] at hr
    · simp at hp
  exact h.2 rfl rfl hg

/-- Counterexample to C2 as stated: `_is_iterating` tests only the object
dtype of the stored values, never their shape against the host's navigation
shape — this collection is iterating although none of its argument values is
a ragged array matching the host's navigation shape `[3]`, falsifying the
claimed "if and only if". -/
theorem c2_shape_counterexample :
    markersInit "LineCollection" (some "data") (some "display") none
      [("offsets", .ragged ⟨[2],
        [.node [.node [.cell (.num 1), .cell (.num 1)]],
         .node [.node [.cell (.num 2), .cell (.num 2)]]]⟩)] =
      .ok c2MismatchState ∧
    c2MismatchState.isIterating = true ∧
    ∀ p ∈ c2MismatchState.kwargs,
      ¬ raggedShapeOf p.2 = some c2HostX.navShape := by
  exact ⟨rfl, rfl, by decide⟩

theorem mapPoints_point (f : ℚ → ℚ → Except PyErr (ℚ × ℚ)) (x y : ℚ)
    (p : ℚ × ℚ) (hf : f x y = .ok p) :
    mapPoints f (.node [.cell (.num x), .cell (.num y)]) =
      .ok (.node [.cell (.num p.1), .cell (.num p.2)]) := by
  rw [mapPoints]
  simp [hf, Bind.bind, Except.bind, pure, Except.pure]

theorem mapPointsList_points (f : ℚ → ℚ → Except PyErr (ℚ × ℚ))
    (g : ℚ × ℚ → ℚ × ℚ) (ps : List (ℚ × ℚ))
    (hf : ∀ p ∈ ps, f p.1 p.2 = .ok (g p)) :
    mapPointsList f
        (ps.map (fun p => Tensor.node [.cell (.num p.1), .cell (.num p.2)])) =
      .ok ((ps.map (fun p => Tensor.node
        [.cell (.num (g p).1), .cell (.num (g p).2)]))) := by
  induction ps with
  | nil => rfl
  | cons p t ih =>
      simp only [List.map_cons]
      rw [mapPointsList,
        mapPoints_point f p.1 p.2 (g p) (hf p (by simp)),
        ih (fun q hq => hf q (by simp [hq]))]
      rfl

theorem mapPoints_pointsTensor (f : ℚ → ℚ → Except PyErr (ℚ × ℚ))
    (g : ℚ × ℚ → ℚ × ℚ) (ps : List (ℚ × ℚ))
    (hf : ∀ p ∈ ps, f p.1 p.2 = .ok (g p)) :
    mapPoints f (pointsTensor ps) = .ok (pointsTensor (ps.map g)) := by
  unfold pointsTensor
  cases ps with
  | nil => rfl
  | cons p t =>
      rw [mapPoints]
      · rw [show (p :: t).map (fun p => Tensor.node
            [.cell (.num p.1), .cell (.num p.2)]) =
            Tensor.node [.cell (.num p.1), .cell (.num p.2)] ::
              t.map (fun p => Tensor.node
                [.cell (.num p.1), .cell (.num p.2)]) from rfl]
        rw [show ((p :: t).map g).map (fun p => Tensor.node
            [.cell (.num p.1), .cell (.num p.2)]) =
            (p :: t).map (fun p => Tensor.node
              [.cell (.num (g p).1), .cell (.num (g p).2)]) by
          simp]
        rw [show mapPointsList f (Tensor.node
            [.cell (.num p.1), .cell (.num p.2)] ::
            t.map (fun p => Tensor.node
              [.cell (.num p.1), .cell (.num p.2)])) =
          mapPointsList f (((p :: t)).map (fun p => Tensor.node
              [.cell (.num p.1), .cell (.num p.2)])) from rfl]
        rw [mapPointsList_points f g (p :: t) hf]
        simp [Bind.bind, Except.bind, pure, Except.pure]
      · intro x y h
        simp at h

theorem mapPoints_segment (f : ℚ → ℚ → Except PyErr (ℚ × ℚ))
    (g : ℚ × ℚ → ℚ × ℚ) (a b : ℚ × ℚ)
    (ha : f a.1 a.2 = .ok (g a)) (hb : f b.1 b.2 = .ok (g b)) :
    mapPoints f (.node [.node [.cell (.num a.1), .cell (.num a.2)],
        .node [.cell (.num b.1), .cell (.num b.2)]]) =
      .ok (.node [.node [.cell (.num (g a).1), .cell (.num (g a).2)],
        .node [.cell (.num (g b).1), .cell (.num (g b).2)]]) := by
  rw [mapPoints]
  · rw [mapPointsList, mapPoints_point f a.1 a.2 (g a) ha,
      mapPointsList, mapPoints_point f b.1 b.2 (g b) hb]
    rfl
  · intro x y h
    simp at h

theorem mapPointsList_segments (f : ℚ → ℚ → Except PyErr (ℚ × ℚ))
    (g : ℚ × ℚ → ℚ × ℚ) (ss : List ((ℚ × ℚ) × (ℚ × ℚ)))
    (hf : ∀ sg ∈ ss, f sg.1.1 sg.1.2 = .ok (g sg.1) ∧
      f sg.2.1 sg.2.2 = .ok (g sg.2)) :
    mapPointsList f (ss.map (fun sg => Tensor.node
        [.node [.cell (.num sg.1.1), .cell (.num sg.1.2)],
         .node [.cell (.num sg.2.1), .cell (.num sg.2.2)]])) =
      .ok (ss.map (fun sg => Tensor.node
        [.node [.cell (.num (g sg.1).1), .cell (.num (g sg.1).2)],
         .node [.cell (.num (g sg.2).1), .cell (.num (g sg.2).2)]])) := by
  induction ss with
  | nil => rfl
  | cons sg t ih =>
      simp only [List.map_cons]
      rw [mapPointsList,
        mapPoints_segment f g sg.1 sg.2 (hf sg (by simp)).1 (hf sg (by simp)).2,
        ih (fun u hu => hf u (by simp [hu]))]
      rfl

theorem mapPoints_segmentsTensor (f : ℚ → ℚ → Except PyErr (ℚ × ℚ))
    (g : ℚ × ℚ → ℚ × ℚ) (ss : List ((ℚ × ℚ) × (ℚ × ℚ)))
    (hf : ∀ sg ∈ ss, f sg.1.1 sg.1.2 = .ok (g sg.1) ∧
      f sg.2.1 sg.2.2 = .ok (g sg.2)) :
    mapPoints f (segmentsTensor ss) =
      .ok (segmentsTensor (ss.map (fun sg => (g sg.1, g sg.2)))) := by
  unfold segmentsTensor
  cases ss with
  | nil => rfl
  | cons sg t =>
      rw [mapPoints]
      · rw [show ((sg :: t).map (fun sg => (g sg.1, g sg.2))).map
            (fun sg => Tensor.node
              [.node [.cell (.num sg.1.1), .cell (.num sg.1.2)],
               .node [.cell (.num sg.2.1), .cell (.num sg.2.2)]]) =
            (sg :: t).map (fun sg => Tensor.node
              [.node [.cell (.num (g sg.1).1), .cell (.num (g sg.1).2)],
               .node [.cell (.num (g sg.2).1), .cell (.num (g sg.2).2)]]) by
          simp]
        rw [show mapPointsList f ((sg :: t).map (fun sg => Tensor.node
            [.node [.cell (.num sg.1.1), .cell (.num sg.1.2)],
             .node [.cell (.num sg.2.1), .cell (.num sg.2.2)]])) =
          mapPointsList f ((sg :: t).map (fun sg => Tensor.node
            [.node [.cell (.num sg.1.1), .cell (.num sg.1.2)],
             .node [.cell (.num sg.2.1), .cell (.num sg.2.2)]])) from rfl]
        rw [mapPointsList_segments f g (sg :: t) hf]
        simp [Bind.bind, Except.bind, pure, Except.pure]
      · intro x y h
        simp at h

theorem scalePoint_eval (host : Host) (sh : Option ℚ) (x y : ℚ)
    (htr : host.trace ≠ []) (hx : xInTrace host x) :
    scalePoint host sh x y = .ok (x, scaledY host sh x y) := by
  obtain ⟨hnn, hlt⟩ := hx
  unfold scalePoint npIndex1
  rw [if_pos hnn]
  have hv : host.trace.get?
      (npRound ((x - host.axOffset) / host.axScale)).toNat =
      some (host.trace.getD
        (npRound ((x - host.axOffset) / host.axScale)).toNat 0) := by
    rw [List.getD_eq_getElem?_getD, List.get?_eq_getElem?]
    rw [List.getElem?_eq_getElem hlt]
    rfl
  rw [hv]
  cases sh with
  | none =>
      unfold scaledY
      simp [Bind.bind, Except.bind, pure, Except.pure]
  | some c =>
      cases hc : host.trace with
      | nil => exact absurd hc htr
      | cons q qs =>
          unfold scaledY listMaxQ listMinQ traceMax traceMin
          rw [hc]
          simp [Bind.bind, Except.bind, pure, Except.pure]

theorem scale_kwarg_points (s : MarkerState) (host : Host)
    (kwds : List (String × PyVal)) (key : String) (ps : List (ℚ × ℚ))
    (hk : aget kwds key = some (.tensor (pointsTensor ps)))
    (htr : host.trace ≠ []) (hx : ∀ p ∈ ps, xInTrace host p.1) :
    scale_kwarg s host kwds key = .ok (aset kwds key (.tensor
      (pointsTensor (ps.map (fun p =>
        (p.1, scaledY host s.shift p.1 p.2)))))) := by
  unfold scale_kwarg
  rw [hk]
  dsimp only
  rw [mapPoints_pointsTensor (scalePoint host s.shift)
    (fun p => (p.1, scaledY host s.shift p.1 p.2)) ps
    (fun p hp => scalePoint_eval host s.shift p.1 p.2 htr (hx p hp))]
  rfl

theorem scale_kwarg_segments (s : MarkerState) (host : Host)
    (kwds : List (String × PyVal)) (key : String)
    (ss : List ((ℚ × ℚ) × (ℚ × ℚ)))
    (hk : aget kwds key = some (.tensor (segmentsTensor ss)))
    (htr : host.trace ≠ [])
    (hx : ∀ sg ∈ ss, xInTrace host sg.1.1 ∧ xInTrace host sg.2.1) :
    scale_kwarg s host kwds key = .ok (aset kwds key (.tensor
      (segmentsTensor (ss.map (fun sg =>
        ((sg.1.1, scaledY host s.shift sg.1.1 sg.1.2),
         (sg.2.1, scaledY host s.shift sg.2.1 sg.2.2))))))) := by
  unfold scale_kwarg
  rw [hk]
  dsimp only
  rw [mapPoints_segmentsTensor (scalePoint host s.shift)
    (fun p => (p.1, scaledY host s.shift p.1 p.2)) ss
    (fun sg hsg => ⟨scalePoint_eval host s.shift sg.1.1 sg.1.2 htr
        (hx sg hsg).1,
      scalePoint_eval host s.shift sg.2.1 sg.2.2 htr (hx sg hsg).2⟩)]
  rfl

theorem ahas_of_aget {α : Type} (l : List (String × α)) (k : String) (v : α)
    (h : aget l k = some v) : ahas l k = true := by
  induction l with
  | nil => simp [aget] at h
  | cons p t ih =>
      obtain ⟨a, b⟩ := p
      by_cases hk : a = k
      · simp [ahas, hk]
      · simp only [aget, if_neg hk] at h
        have h2 := ih h
        simp only [ahas, List.any_cons] at h2 ⊢
        simp [hk, h2]

/-- Claim C5: under a relative transform the draw-time value of every
offset/segment point `(x, y)` is `(x, trace[round((x - offset)/scale)] * y)`,
plus `shift * (max(trace) - min(trace))` on the y-component when a shift is
configured; the x component is unchanged and all other kwargs are
untouched. -/
theorem c5_relative_scaling (s : MarkerState) (host : Host)
    (ps : List (ℚ × ℚ)) (ss : List ((ℚ × ℚ) × (ℚ × ℚ)))
    (hrel : s.offsets_transform = "relative" ∨ s.transform = "relative")
    (hni : s.isIterating = false)
    (hoff : aget s.kwargs "offsets" = some (.tensor (pointsTensor ps)))
    (hseg : aget s.kwargs "segments" = some (.tensor (segmentsTensor ss)))
    (htr : host.trace ≠ [])
    (hxp : ∀ p ∈ ps, xInTrace host p.1)
    (hxs : ∀ sg ∈ ss, xInTrace host sg.1.1 ∧ xInTrace host sg.2.1) :
    ∃ kw, get_data_position s host true true = .ok (s, kw) ∧
      aget kw "offsets" = some (.tensor (pointsTensor (ps.map (fun p =>
        (p.1, scaledY host s.shift p.1 p.2))))) ∧
      aget kw "segments" = some (.tensor (segmentsTensor (ss.map (fun sg =>
        ((sg.1.1, scaledY host s.shift sg.1.1 sg.1.2),
         (sg.2.1, scaledY host s.shift sg.2.1 sg.2.2)))))) ∧
      ∀ k, k ≠ "offsets" → k ≠ "segments" → aget kw k = aget s.kwargs k := by
  have hseg1 : aget (aset s.kwargs "offsets" (.tensor
      (pointsTensor (ps.map (fun p =>
        (p.1, scaledY host s.shift p.1 p.2)))))) "segments" =
      some (.tensor (segmentsTensor ss)) := by
    rw [aget_aset_ne _ _ _ _ (by decide)]
    exact hseg
  refine ⟨aset (aset s.kwargs "offsets" (.tensor
      (pointsTensor (ps.map (fun p => (p.1, scaledY host s.shift p.1 p.2))))))
      "segments" (.tensor (segmentsTensor (ss.map (fun sg =>
        ((sg.1.1, scaledY host s.shift sg.1.1 sg.1.2),
         (sg.2.1, scaledY host s.shift sg.2.1 sg.2.2)))))), ?_, ?_, ?_, ?_⟩
  · unfold get_data_position
    rw [hni]
    simp only [Bind.bind, Except.bind, pure, Except.pure,
      Bool.false_eq_true, if_false]
    rw [if_pos (show True ∧ (s.offsets_transform = "relative" ∨
        s.transform = "relative") from ⟨trivial, hrel⟩)]
    rw [if_pos (ahas_of_aget _ _ _ hoff)]
    rw [scale_kwarg_points s host s.kwargs "offsets" ps hoff htr hxp]
    simp only [Bind.bind, Except.bind, pure, Except.pure]
    rw [if_pos (ahas_of_aget _ _ _ hseg1)]
    rw [scale_kwarg_segments s host _ "segments" ss hseg1 htr hxs]
  · rw [aget_aset_ne _ _ _ _ (by decide), aget_aset_self]
  · rw [aget_aset_self]
  · intro k h1 h2
    rw [aget_aset_ne _ _ _ _ (Ne.symm h2), aget_aset_ne _ _ _ _ (Ne.symm h1)]

/-- Witness for C5 at a concrete relative collection: with trace `[5, 11]`
and shift 1/2, the offset `(1, 2)` is rescaled to `(1, 11*2 + 3) = (1, 25)`
and the segment endpoints `(0,1)`, `(1,1)` to `(0, 8)` and `(1, 14)`. -/
theorem c5_relative_scaling_witness :
    (∃ kw, get_data_position c5State c5Host true true = .ok (c5State, kw) ∧
      aget kw "offsets" = some (.tensor (pointsTensor
        (([(1, 2)] : List (ℚ × ℚ)).map (fun p =>
          (p.1, scaledY c5Host c5State.shift p.1 p.2))))) ∧
      aget kw "segments" = some (.tensor (segmentsTensor
        (([((0, 1), (1, 1))] : List ((ℚ × ℚ) × (ℚ × ℚ))).map (fun sg =>
          ((sg.1.1, scaledY c5Host c5State.shift sg.1.1 sg.1.2),
           (sg.2.1, scaledY c5Host c5State.shift sg.2.1 sg.2.2)))))) ∧
      ∀ k, k ≠ "offsets" → k ≠ "segments" →
        aget kw k = aget c5State.kwargs k) ∧
    scaledY c5Host c5State.shift 1 2 = 25 ∧
    scaledY c5Host c5State.shift 0 1 = 8 ∧
    scaledY c5Host c5State.shift 1 1 = 14 :=
  ⟨c5_relative_scaling c5State c5Host [(1, 2)] [((0, 1), (1, 1))]
    (Or.inr rfl) rfl rfl rfl (by decide)
    (by with_unfolding_all decide) (by with_unfolding_all decide),
   by with_unfolding_all decide, by with_unfolding_all decide,
   by with_unfolding_all decide⟩

theorem aset_self {α : Type} (l : List (String × α)) (k : String) (v : α)
    (h : aget l k = some v) : aset l k v = l := by
  induction l with
  | nil => simp [aget] at h
  | cons p t ih =>
      obtain ⟨a, b⟩ := p
      by_cases hk : a = k
      · subst hk
        rw [aget, if_pos rfl] at h
        injection h with h
        subst h
        simp [aset]
      · simp only [aget, if_neg hk] at h
        simp [aset, hk, ih h]

theorem npAppend_ok_of_shapes (cs vs : List Tensor) (n m : Nat)
    (tail : List Nat) (h1 : tensorShape (.node cs) = some (n :: tail))
    (h2 : tensorShape (.node vs) = some (m :: tail)) :
    npAppend (.node cs) (.node vs) = .ok (.node (cs ++ vs)) := by
  unfold npAppend
  dsimp only
  rw [h1, h2]
  simp

theorem npAppend_err_of_shapes (cs vs : List Tensor) (n m : Nat)
    (tail tailv : List Nat) (h1 : tensorShape (.node cs) = some (n :: tail))
    (h2 : tensorShape (.node vs) = some (m :: tailv)) (hne : tailv ≠ tail) :
    npAppend (.node cs) (.node vs) = .error .shapeMismatch := by
  unfold npAppend
  dsimp only
  rw [h1, h2]
  simp only [if_neg (show ¬ tail = tailv from fun h => hne h.symm)]

theorem node_of_shape_cons (c : Tensor) (n : Nat) (sh : List Nat)
    (h : tensorShape c = some (n :: sh)) : c = .node (tensorChildren c) := by
  cases c with
  | cell v => rw [tensorShape] at h; cases h
  | node ts => rfl

theorem appendCells_ok (v : Tensor) (cells : List Tensor)
    (f : Tensor → Tensor) (hf : ∀ c ∈ cells, npAppend c v = .ok (f c)) :
    appendCells v cells = (none, cells.map f) := by
  induction cells with
  | nil => rfl
  | cons c cs ih =>
      rw [appendCells.eq_def]
      dsimp only
      rw [hf c (by simp), ih (fun u hu => hf u (by simp [hu]))]
      rfl

theorem appendCells_err_head (v : Tensor) (c0 : Tensor) (rest : List Tensor)
    (e : PyErr) (h : npAppend c0 v = .error e) :
    appendCells v (c0 :: rest) = (some e, c0 :: rest) := by
  rw [appendCells.eq_def]
  dsimp only
  rw [h]

/-- Amended claim C9: appending an empty value is a no-op; per argument the
operation is atomic — a plain-array argument is appended in full on a
trailing-shape match and left untouched on a mismatch, and a ragged argument
whose per-position cells share a common trailing shape is either appended at
every navigation position or (on a mismatch, with at least one position) left
entirely untouched.  (Arguments listed before a failing one in the same call
remain appended — see the counterexample.) -/
theorem c9_append_no_op_and_atomic (s : MarkerState) (k : String)
    (vs : List Tensor) :
    (∀ ks, append_kwarg s ks (.node []) = (none, s)) ∧
    (∀ t e, aget s.kwargs k = some (.tensor t) → vs ≠ [] →
      npAppend t (.node vs) = .error e →
      append_kwarg s [k] (.node vs) = (some e, s)) ∧
    (∀ t t2, aget s.kwargs k = some (.tensor t) → vs ≠ [] →
      npAppend t (.node vs) = .ok t2 →
      append_kwarg s [k] (.node vs) =
        (none, { s with kwargs := aset s.kwargs k (.tensor t2) })) ∧
    (∀ r m tail tailv, aget s.kwargs k = some (.ragged r) → vs ≠ [] →
      (∀ c ∈ r.cells, ∃ n, tensorShape c = some (n :: tail)) →
      tensorShape (.node vs) = some (m :: tailv) →
      ((tailv = tail →
        append_kwarg s [k] (.node vs) = (none,
          { s with kwargs := aset s.kwargs k (.ragged { r with cells := r.cells.map (fun c => Tensor.node (tensorChildren c ++ vs)) }) })) ∧
       (tailv ≠ tail → r.cells ≠ [] →
        append_kwarg s [k] (.node vs) = (some .shapeMismatch, s)))) := by
  refine ⟨?_, ?_, ?_, ?_⟩
  · intro ks
    rfl
  · intro t e hk hvne he
    unfold append_kwarg
    dsimp only
    rw [if_neg (by simpa using hvne)]
    rw [appendKeys.eq_def]
    dsimp only
    rw [hk]
    dsimp only
    rw [he]
  · intro t t2 hk hvne hok
    unfold append_kwarg
    dsimp only
    rw [if_neg (by simpa using hvne)]
    rw [appendKeys.eq_def]
    dsimp only
    rw [hk]
    dsimp only
    rw [hok]
    rfl
  · intro r m tail tailv hk hvne hcells hvshape
    constructor
    · intro heq
      subst tailv
      unfold append_kwarg
      dsimp only
      rw [if_neg (by simpa using hvne)]
      rw [appendKeys.eq_def]
      dsimp only
      rw [hk]
      dsimp only
      rw [appendCells_ok (.node vs) r.cells
        (fun c => .node (tensorChildren c ++ vs)) ?_]
      · rfl
      · intro c hc
        obtain ⟨n, hsh⟩ := hcells c hc
        have hcn := node_of_shape_cons c n tail hsh
        rw [hcn] at hsh ⊢
        exact npAppend_ok_of_shapes _ vs n m tail hsh hvshape
    · intro hne hcne
      cases hcl : r.cells with
      | nil => exact absurd hcl hcne
      | cons c0 rest =>
          unfold append_kwarg
          dsimp only
          rw [if_neg (by simpa using hvne)]
          rw [appendKeys.eq_def]
          dsimp only
          rw [hk]
          dsimp only
          rw [hcl]
          obtain ⟨n, hsh⟩ := hcells c0 (by rw [hcl]; simp)
          have hcn := node_of_shape_cons c0 n tail hsh
          rw [appendCells_err_head (.node vs) c0 rest .shapeMismatch (by
            rw [hcn] at hsh ⊢
            exact npAppend_err_of_shapes _ vs n m tail tailv hsh hvshape hne)]
          rw [← hcl]
          dsimp only
          rw [show ({ r with cells := r.cells } : Ragged) = r from rfl]
          rw [aset_self s.kwargs k (.ragged r) hk]

theorem c9_append_no_op_and_atomic_witness :
    append_kwarg c9State ["sizes"] (.node []) = (none, c9State) ∧
    append_kwarg c9State ["sizes"]
        (.node [.node [.cell (.num 5), .cell (.num 5)]]) =
      (some .shapeMismatch, c9State) := by
  obtain ⟨h1, h2, h3, h4⟩ := c9_append_no_op_and_atomic c9State "sizes"
    [.node [.cell (.num 5), .cell (.num 5)]]
  refine ⟨h1 ["sizes"], h2 (.node [.cell (.num 1)]) .shapeMismatch ?_ ?_ ?_⟩
  · with_unfolding_all decide
  · with_unfolding_all decide
  · with_unfolding_all decide

/-- Counterexample to claim C9 as stated across arguments: appending a
(1,2)-shaped value to the keys `offsets` (shape (1,2)) and `sizes` (shape
(1,)) fails with a shape mismatch on `sizes`, yet leaves `offsets` already
mutated to the appended array — the operation is not atomic across the whole
named-argument list, only per argument. -/
theorem c9_counterexample :
    (append_kwarg c9State ["offsets", "sizes"]
        (.node [.node [.cell (.num 5), .cell (.num 5)]])).1 =
      some .shapeMismatch ∧
    aget (append_kwarg c9State ["offsets", "sizes"]
        (.node [.node [.cell (.num 5), .cell (.num 5)]])).2.kwargs "offsets" =
      some (.tensor (.node [.node [.cell (.num 1), .cell (.num 1)],
        .node [.cell (.num 5), .cell (.num 5)]])) ∧
    aget c9State.kwargs "offsets" =
      some (.tensor (.node [.node [.cell (.num 1), .cell (.num 1)]])) := by
  refine ⟨?_, ?_, ?_⟩
  · with_unfolding_all decide
  · with_unfolding_all decide
  · with_unfolding_all decide

/-- Claim C6: a legacy record of kind `"Rectangle"` with corner fields
`x1,y1,x2,y2` reconstructs to a `PolyCollection`-backed marker whose `verts`
argument holds, at every navigation position, the single 4-point polygon
`[[x1,y1],[x2,y1],[x2,y2],[x1,y2]]` of that position's corner values — as a
plain `(1,4,2)` array for scalar fields, and as an object array over the
navigation shape with one such polygon cell per position for iterable
fields. -/
theorem c6_rectangle_upgrade (x1 y1 x2 y2 u1 v1 u2 v2 : ℚ) :
    markers2collectionRecord (c6StaticRecord x1 y1 x2 y2) =
      .ok (.marker (c6State (.tensor (.node [c6Quad x1 y1 x2 y2])))) ∧
    markers2collectionRecord (c6IterRecord x1 y1 x2 y2 u1 v1 u2 v2) =
      .ok (.marker (c6State (.ragged ⟨[2],
        [.node [c6Quad x1 y1 x2 y2], .node [c6Quad u1 v1 u2 v2]]⟩))) := by
  constructor
  · with_unfolding_all rfl
  · with_unfolding_all rfl

/-- Claim C3 (chunk-slice helper modelled from the spec): with one
lazily-backed kwarg and indices `i`, `j` covered by the same chunk slice `sl`
and `l` by a different slice `sl2`, the first query materializes exactly the
kwarg `k` and caches the block `raggedSlice r sl`; the second query at `j`
materializes nothing and leaves the state — hence the cached block —
identical, both answers being read out of that same block; the query at `l`
materializes exactly `k` again and the new block `raggedSlice r sl2` replaces
(does not merge with) the cached entry. -/
theorem c3_chunk_cache (k : String) (chunks : List (List Nat)) (r : Ragged)
    (i j l : List Nat) (sl sl2 : List (Nat × Nat)) (ti tj tl : Tensor)
    (hi : navChunkSlice i chunks = some sl)
    (hj : navChunkSlice j chunks = some sl)
    (hl : navChunkSlice l chunks = some sl2)
    (hne : sl2 ≠ sl)
    (hgi : raggedGet (raggedSlice r sl)
      (List.zipWith (fun a b => a - b) i (sl.map Prod.fst)) = .ok ti)
    (hgj : raggedGet (raggedSlice r sl)
      (List.zipWith (fun a b => a - b) j (sl.map Prod.fst)) = .ok tj)
    (hgl : raggedGet (raggedSlice r sl2)
      (List.zipWith (fun a b => a - b) l (sl2.map Prod.fst)) = .ok tl) :
    getCacheDaskKwargsChunk (c3S k chunks r) i =
      .ok (c3Cached k chunks r sl (raggedSlice r sl),
        [(k, .tensor ti)], [k]) ∧
    getCacheDaskKwargsChunk (c3Cached k chunks r sl (raggedSlice r sl)) j =
      .ok (c3Cached k chunks r sl (raggedSlice r sl),
        [(k, .tensor tj)], []) ∧
    getCacheDaskKwargsChunk (c3Cached k chunks r sl (raggedSlice r sl)) l =
      .ok (c3Cached k chunks r sl2 (raggedSlice r sl2),
        [(k, .tensor tl)], [k]) := by
  have hne2 : sl ≠ sl2 := fun h => hne h.symm
  refine ⟨?_, ?_, ?_⟩
  · unfold getCacheDaskKwargsChunk
    simp [c3S, c3Cached, aget, aset, hi, hgi, Bind.bind, Except.bind,
      pure, Except.pure, List.mapM.loop, List.foldl]
  · unfold getCacheDaskKwargsChunk
    simp [c3S, c3Cached, aget, aset, hj, hgj, Bind.bind, Except.bind,
      pure, Except.pure, List.mapM.loop, List.foldl]
  · unfold getCacheDaskKwargsChunk
    simp [c3S, c3Cached, aget, aset, hl, hgl, hne2, Bind.bind, Except.bind,
      pure, Except.pure, List.mapM.loop, List.foldl]

theorem c3_chunk_cache_witness :
    getCacheDaskKwargsChunk (c3S "offsets" [[2, 2]] c3R) [0] =
      .ok (c3Cached "offsets" [[2, 2]] c3R [(0, 2)] (raggedSlice c3R [(0, 2)]),
        [("offsets", .tensor (.cell (.num 0)))], ["offsets"]) ∧
    getCacheDaskKwargsChunk
        (c3Cached "offsets" [[2, 2]] c3R [(0, 2)] (raggedSlice c3R [(0, 2)]))
        [1] =
      .ok (c3Cached "offsets" [[2, 2]] c3R [(0, 2)] (raggedSlice c3R [(0, 2)]),
        [("offsets", .tensor (.cell (.num 1)))], []) ∧
    getCacheDaskKwargsChunk
        (c3Cached "offsets" [[2, 2]] c3R [(0, 2)] (raggedSlice c3R [(0, 2)]))
        [2] =
      .ok (c3Cached "offsets" [[2, 2]] c3R [(2, 4)] (raggedSlice c3R [(2, 4)]),
        [("offsets", .tensor (.cell (.num 2)))], ["offsets"]) := by
  exact c3_chunk_cache "offsets" [[2, 2]] c3R [0] [1] [2] [(0, 2)] [(2, 4)]
    (.cell (.num 0)) (.cell (.num 1)) (.cell (.num 2))
    (by with_unfolding_all decide) (by with_unfolding_all decide)
    (by with_unfolding_all decide) (by with_unfolding_all decide)
    (by with_unfolding_all decide) (by with_unfolding_all decide)
    (by with_unfolding_all decide)

/-! Round-trip support: association-list and normalization facts. -/

theorem any_map_normPair (l : List (String × PyVal)) (R : List String) :
    (l.map normPair).any (fun p => p.1 ∈ R) = l.any (fun p => p.1 ∈ R) := by
  induction l with
  | nil => rfl
  | cons p t ih => simp [normPair, ih]

theorem aremoveAll_cons_mem {α : Type} (k : String) (v : α)
    (l : List (String × α)) (ks : List String) (h : k ∈ ks) :
    aremoveAll ((k, v) :: l) ks = aremoveAll l ks := by
  simp [aremoveAll, h]

theorem aremoveAll_eq_self {α : Type} (l : List (String × α))
    (ks : List String) (h : ∀ p ∈ l, p.1 ∉ ks) : aremoveAll l ks = l := by
  induction l with
  | nil => rfl
  | cons p t ih =>
      cases p with
      | mk k v =>
          rw [aremoveAll, if_neg (h (k, v) (by simp))]
          rw [ih (fun q hq => h q (by simp [hq]))]

theorem conflict_getD (ot tr : Option String)
    (h2 : ¬ (ot = some "data" ∧ (tr = some "axes" ∨ tr = some "data"))) :
    ¬ (some (ot.getD "None") = some "data" ∧
      (some (tr.getD "None") = some "axes" ∨
       some (tr.getD "None") = some "data")) := by
  rintro ⟨ha, hb⟩
  apply h2
  constructor
  · cases ot with
    | none => exact absurd (Option.some.inj ha) (by decide)
    | some x => exact congrArg some (Option.some.inj ha)
  · cases tr with
    | none =>
        rcases hb with hb | hb <;>
          exact absurd (Option.some.inj hb) (by decide)
    | some x =>
        rcases hb with hb | hb
        · exact Or.inl (congrArg some (Option.some.inj hb))
        · exact Or.inr (congrArg some (Option.some.inj hb))

theorem roundTripGeneric (cc : String) (ot tr : Option String)
    (kw : List (String × PyVal)) (s : MarkerState)
    (hb : markersInit cc ot tr none kw = .ok s) :
    markers2collectionRecord (toDictionary s) = .ok (.marker s) := by
  unfold markersInit at hb
  split_ifs at hb with hres
  obtain ⟨h1, h2, h3, h4, hs⟩ := markersInitCore_ok _ _ _ _ _ _ _ hb
  subst hs
  unfold toDictionary markers2collectionRecord
  dsimp only
  simp only [getField, liftE, Bind.bind, Except.bind, pure, Except.pure]
  unfold markersInit
  rw [if_neg (by rw [any_map_normPair]; simp [hres])]
  rw [markersInitCore_builds _ _ _ _ _ _ h1 (conflict_getD _ _ h2)
    (by simpa using h3) (by simpa using h4)]
  simp only [liftE, Option.getD_some, map_normPair_idem]
  rfl

theorem roundTripPoints (o z a u : PyVal) (ot : Option String)
    (ta : Option (Option String)) (rest : List (String × PyVal))
    (s : MarkerState) (hb : pointsInit o z a u ot ta none rest = .ok s) :
    markers2collectionRecord (toDictionary s) = .ok (.marker s) := by
  unfold pointsInit equalWHInit at hb
  split_ifs at hb with hrest htr
  obtain ⟨h1, h2, h3, h4, hs⟩ := markersInitCore_ok _ _ _ _ _ _ _ hb
  subst hs
  have hrest2 : ∀ p ∈ rest, p.1 ∉ equalWHReserved := by
    intro p hp hmem
    refine hrest ?_
    simp only [List.any_eq_true, decide_eq_true_eq]
    exact ⟨p, hp, hmem⟩
  have hsub : ∀ x : String,
      x ∈ (["offsets", "sizes", "angles", "units"] : List String) →
      x ∈ equalWHReserved := by
    intro x hx
    simp only [List.mem_cons, List.not_mem_nil, or_false] at hx
    rcases hx with h | h | h | h <;> (subst h; decide)
  have hna : ∀ p ∈ rest.map normPair,
      p.1 ∉ (["offsets", "sizes", "angles", "units"] : List String) := by
    intro p hp hmem
    obtain ⟨q, hq, hpq⟩ := List.mem_map.mp hp
    subst hpq
    exact hrest2 q hq (hsub _ hmem)
  unfold toDictionary markers2collectionRecord
  dsimp only
  simp [List.nil_append, List.map_append, List.map_cons, normPair,
    getField, bindReq, bindParam, aget, liftE, Bind.bind, Except.bind,
    pure, Except.pure]
  have hrem : aremoveAll (("offsets", normalizeKwarg "offsets" o) ::
      ("sizes", normalizeKwarg "sizes" z) ::
      ("angles", normalizeKwarg "angles" a) ::
      ("units", normalizeKwarg "units" u) :: rest.map normPair)
      ["offsets", "sizes", "angles", "units"] = rest.map normPair := by
    rw [aremoveAll_cons_mem _ _ _ _ (by decide),
      aremoveAll_cons_mem _ _ _ _ (by decide),
      aremoveAll_cons_mem _ _ _ _ (by decide),
      aremoveAll_cons_mem _ _ _ _ (by decide),
      aremoveAll_eq_self _ _ hna]
  rw [hrem]
  unfold pointsInit equalWHInit
  rw [if_neg (by rw [any_map_normPair]; simp [hrest])]
  rw [if_neg (by decide)]
  rw [markersInitCore_builds _ _ _ _ _ _ h1
    (by rintro ⟨-, hc⟩; rcases hc with hc | hc <;>
      exact absurd (Option.some.inj hc) (by decide))
    (by simpa using h3) (by decide)]
  simp only [liftE, Option.getD_some, List.map_append, List.map_cons,
    normPair, normalizeKwarg_idem, map_normPair_idem]
  rfl

theorem roundTripCircles (o z a u fc : PyVal) (ot : Option String)
    (ta : Option (Option String)) (rest : List (String × PyVal))
    (s : MarkerState) (hb : circlesInit o z a u fc ot ta none rest = .ok s) :
    markers2collectionRecord (toDictionary s) = .ok (.marker s) := by
  unfold circlesInit equalWHInit at hb
  split_ifs at hb with hrest htr
  obtain ⟨h1, h2, h3, h4, hs⟩ := markersInitCore_ok _ _ _ _ _ _ _ hb
  subst hs
  have hrest2 : ∀ p ∈ rest, p.1 ∉ equalWHReserved := by
    intro p hp hmem
    refine hrest ?_
    simp only [List.any_eq_true, decide_eq_true_eq]
    exact ⟨p, hp, hmem⟩
  have hsub : ∀ x : String,
      x ∈ (["offsets", "sizes", "angles", "units", "facecolors"] :
        List String) → x ∈ equalWHReserved := by
    intro x hx
    simp only [List.mem_cons, List.not_mem_nil, or_false] at hx
    rcases hx with h | h | h | h | h <;> (subst h; decide)
  have hna : ∀ p ∈ rest.map normPair,
      p.1 ∉ (["offsets", "sizes", "angles", "units", "facecolors"] :
        List String) := by
    intro p hp hmem
    obtain ⟨q, hq, hpq⟩ := List.mem_map.mp hp
    subst hpq
    exact hrest2 q hq (hsub _ hmem)
  unfold toDictionary markers2collectionRecord
  dsimp only
  simp [List.nil_append, List.map_append, List.map_cons, normPair,
    getField, bindReq, bindParam, aget, liftE, Bind.bind, Except.bind,
    pure, Except.pure]
  have hrem : aremoveAll (("offsets", normalizeKwarg "offsets" o) ::
      ("sizes", normalizeKwarg "sizes" z) ::
      ("angles", normalizeKwarg "angles" a) ::
      ("units", normalizeKwarg "units" u) ::
      ("facecolors", normalizeKwarg "facecolors" fc) :: rest.map normPair)
      ["offsets", "sizes", "angles", "units", "facecolors"] =
      rest.map normPair := by
    rw [aremoveAll_cons_mem _ _ _ _ (by decide),
      aremoveAll_cons_mem _ _ _ _ (by decide),
      aremoveAll_cons_mem _ _ _ _ (by decide),
      aremoveAll_cons_mem _ _ _ _ (by decide),
      aremoveAll_cons_mem _ _ _ _ (by decide),
      aremoveAll_eq_self _ _ hna]
  rw [hrem]
  unfold circlesInit equalWHInit
  rw [if_neg (by rw [any_map_normPair]; simp [hrest])]
  rw [if_neg (by decide)]
  rw [markersInitCore_builds _ _ _ _ _ _ h1
    (by rintro ⟨-, hc⟩; rcases hc with hc | hc <;>
      exact absurd (Option.some.inj hc) (by decide))
    (by simpa using h3) (by decide)]
  simp only [liftE, Option.getD_some, List.map_append, List.map_cons,
    normPair, normalizeKwarg_idem, map_normPair_idem]
  rfl

theorem roundTripSquares (o z a u : PyVal) (ot : Option String)
    (ta : Option (Option String)) (rest : List (String × PyVal))
    (s : MarkerState) (hb : squaresInit o z a u ot ta none rest = .ok s) :
    markers2collectionRecord (toDictionary s) = .ok (.marker s) := by
  unfold squaresInit equalWHInit at hb
  split_ifs at hb with hrest htr
  obtain ⟨h1, h2, h3, h4, hs⟩ := markersInitCore_ok _ _ _ _ _ _ _ hb
  subst hs
  have hrest2 : ∀ p ∈ rest, p.1 ∉ equalWHReserved := by
    intro p hp hmem
    refine hrest ?_
    simp only [List.any_eq_true, decide_eq_true_eq]
    exact ⟨p, hp, hmem⟩
  have hsub : ∀ x : String,
      x ∈ (["offsets", "sizes", "angles", "units"] : List String) →
      x ∈ equalWHReserved := by
    intro x hx
    simp only [List.mem_cons, List.not_mem_nil, or_false] at hx
    rcases hx with h | h | h | h <;> (subst h; decide)
  have hna : ∀ p ∈ rest.map normPair,
      p.1 ∉ (["offsets", "sizes", "angles", "units"] : List String) := by
    intro p hp hmem
    obtain ⟨q, hq, hpq⟩ := List.mem_map.mp hp
    subst hpq
    exact hrest2 q hq (hsub _ hmem)
  unfold toDictionary markers2collectionRecord
  dsimp only
  simp [List.nil_append, List.map_append, List.map_cons, normPair,
    getField, bindReq, bindParam, aget, liftE, Bind.bind, Except.bind,
    pure, Except.pure]
  have hrem : aremoveAll (("offsets", normalizeKwarg "offsets" o) ::
      ("sizes", normalizeKwarg "sizes" z) ::
      ("angles", normalizeKwarg "angles" a) ::
      ("units", normalizeKwarg "units" u) :: rest.map normPair)
      ["offsets", "sizes", "angles", "units"] = rest.map normPair := by
    rw [aremoveAll_cons_mem _ _ _ _ (by decide),
      aremoveAll_cons_mem _ _ _ _ (by decide),
      aremoveAll_cons_mem _ _ _ _ (by decide),
      aremoveAll_cons_mem _ _ _ _ (by decide),
      aremoveAll_eq_self _ _ hna]
  rw [hrem]
  unfold squaresInit equalWHInit
  rw [if_neg (by rw [any_map_normPair]; simp [hrest])]
  rw [if_neg (by decide)]
  rw [markersInitCore_builds _ _ _ _ _ _ h1
    (by rintro ⟨-, hc⟩; rcases hc with hc | hc <;>
      exact absurd (Option.some.inj hc) (by decide))
    (by simpa using h3) (by decide)]
  simp only [liftE, Option.getD_some, List.map_append, List.map_cons,
    normPair, normalizeKwarg_idem, map_normPair_idem]
  rfl

theorem roundTripEllipses (o hv w u av : PyVal) (ot : Option String)
    (ta : Option (Option String)) (rest : List (String × PyVal))
    (s : MarkerState) (hb : ellipsesInit o hv w u av ot ta none rest = .ok s) :
    markers2collectionRecord (toDictionary s) = .ok (.marker s) := by
  unfold ellipsesInit widthsHeightsInit at hb
  split_ifs at hb with hrest htr
  obtain ⟨h1, h2, h3, h4, hs⟩ := markersInitCore_ok _ _ _ _ _ _ _ hb
  subst hs
  have hrest2 : ∀ p ∈ rest, p.1 ∉ widthsHeightsReserved := by
    intro p hp hmem
    refine hrest ?_
    simp only [List.any_eq_true, decide_eq_true_eq]
    exact ⟨p, hp, hmem⟩
  have hsub : ∀ x : String,
      x ∈ (["offsets", "heights", "widths", "units", "angles"] :
        List String) → x ∈ widthsHeightsReserved := by
    intro x hx
    simp only [List.mem_cons, List.not_mem_nil, or_false] at hx
    rcases hx with h | h | h | h | h <;> (subst h; decide)
  have hna : ∀ p ∈ rest.map normPair,
      p.1 ∉ (["offsets", "heights", "widths", "units", "angles"] :
        List String) := by
    intro p hp hmem
    obtain ⟨q, hq, hpq⟩ := List.mem_map.mp hp
    subst hpq
    exact hrest2 q hq (hsub _ hmem)
  unfold toDictionary markers2collectionRecord
  dsimp only
  simp [List.nil_append, List.map_append, List.map_cons, normPair,
    getField, bindReq, bindParam, aget, liftE, Bind.bind, Except.bind,
    pure, Except.pure]
  have hrem : aremoveAll (("offsets", normalizeKwarg "offsets" o) ::
      ("widths", normalizeKwarg "widths" w) ::
      ("heights", normalizeKwarg "heights" hv) ::
      ("units", normalizeKwarg "units" u) ::
      ("angles", normalizeKwarg "angles" av) :: rest.map normPair)
      ["offsets", "heights", "widths", "units", "angles"] =
      rest.map normPair := by
    rw [aremoveAll_cons_mem _ _ _ _ (by decide),
      aremoveAll_cons_mem _ _ _ _ (by decide),
      aremoveAll_cons_mem _ _ _ _ (by decide),
      aremoveAll_cons_mem _ _ _ _ (by decide),
      aremoveAll_cons_mem _ _ _ _ (by decide),
      aremoveAll_eq_self _ _ hna]
  rw [hrem]
  unfold ellipsesInit widthsHeightsInit
  rw [if_neg (by rw [any_map_normPair]; simp [hrest])]
  rw [if_neg (by decide)]
  rw [markersInitCore_builds _ _ _ _ _ _ h1
    (by rintro ⟨-, hc⟩; rcases hc with hc | hc <;>
      exact absurd (Option.some.inj hc) (by decide))
    (by simpa using h3) (by decide)]
  simp only [liftE, Option.getD_some, List.map_append, List.map_cons,
    normPair, normalizeKwarg_idem, map_normPair_idem]
  rfl

theorem roundTripRectangles (o w hv u av : PyVal) (ot : Option String)
    (ta : Option (Option String)) (rest : List (String × PyVal))
    (s : MarkerState)
    (hb : rectanglesInit o w hv u av ot ta none rest = .ok s) :
    markers2collectionRecord (toDictionary s) = .ok (.marker s) := by
  unfold rectanglesInit widthsHeightsInit at hb
  split_ifs at hb with hrest htr
  obtain ⟨h1, h2, h3, h4, hs⟩ := markersInitCore_ok _ _ _ _ _ _ _ hb
  subst hs
  have hrest2 : ∀ p ∈ rest, p.1 ∉ widthsHeightsReserved := by
    intro p hp hmem
    refine hrest ?_
    simp only [List.any_eq_true, decide_eq_true_eq]
    exact ⟨p, hp, hmem⟩
  have hsub : ∀ x : String,
      x ∈ (["offsets", "widths", "heights", "units", "angles"] :
        List String) → x ∈ widthsHeightsReserved := by
    intro x hx
    simp only [List.mem_cons, List.not_mem_nil, or_false] at hx
    rcases hx with h | h | h | h | h <;> (subst h; decide)
  have hna : ∀ p ∈ rest.map normPair,
      p.1 ∉ (["offsets", "widths", "heights", "units", "angles"] :
        List String) := by
    intro p hp hmem
    obtain ⟨q, hq, hpq⟩ := List.mem_map.mp hp
    subst hpq
    exact hrest2 q hq (hsub _ hmem)
  unfold toDictionary markers2collectionRecord
  dsimp only
  simp [List.nil_append, List.map_append, List.map_cons, normPair,
    getField, bindReq, bindParam, aget, liftE, Bind.bind, Except.bind,
    pure, Except.pure]
  have hrem : aremoveAll (("offsets", normalizeKwarg "offsets" o) ::
      ("widths", normalizeKwarg "widths" w) ::
      ("heights", normalizeKwarg "heights" hv) ::
      ("units", normalizeKwarg "units" u) ::
      ("angles", normalizeKwarg "angles" av) :: rest.map normPair)
      ["offsets", "widths", "heights", "units", "angles"] =
      rest.map normPair := by
    rw [aremoveAll_cons_mem _ _ _ _ (by decide),
      aremoveAll_cons_mem _ _ _ _ (by decide),
      aremoveAll_cons_mem _ _ _ _ (by decide),
      aremoveAll_cons_mem _ _ _ _ (by decide),
      aremoveAll_cons_mem _ _ _ _ (by decide),
      aremoveAll_eq_self _ _ hna]
  rw [hrem]
  unfold rectanglesInit widthsHeightsInit
  rw [if_neg (by rw [any_map_normPair]; simp [hrest])]
  rw [if_neg (by decide)]
  rw [markersInitCore_builds _ _ _ _ _ _ h1
    (by rintro ⟨-, hc⟩; rcases hc with hc | hc <;>
      exact absurd (Option.some.inj hc) (by decide))
    (by simpa using h3) (by decide)]
  simp only [liftE, Option.getD_some, List.map_append, List.map_cons,
    normPair, normalizeKwarg_idem, map_normPair_idem]
  rfl

theorem roundTripHLines (o : PyVal) (ta ota : Option (Option String))
    (rest : List (String × PyVal)) (s : MarkerState)
    (hb : horizontalLinesInit o ta ota none rest = .ok s) :
    markers2collectionRecord (toDictionary s) = .ok (.marker s) := by
  unfold horizontalLinesInit at hb
  split_ifs at hb with hrest hbtr hbot
  obtain ⟨h1, h2, h3, h4, hs⟩ := markersInitCore_ok _ _ _ _ _ _ _ hb
  subst hs
  have hrest2 : ∀ p ∈ rest, p.1 ∉ lineAdapterReserved := by
    intro p hp hmem
    refine hrest ?_
    simp only [List.any_eq_true, decide_eq_true_eq]
    exact ⟨p, hp, hmem⟩
  have hna : ∀ p ∈ rest.map normPair,
      p.1 ∉ (["offsets"] : List String) := by
    intro p hp hmem
    obtain ⟨q, hq, hpq⟩ := List.mem_map.mp hp
    subst hpq
    refine hrest2 q hq ?_
    simp only [List.mem_cons, List.not_mem_nil, or_false] at hmem
    have hq1 : q.1 = "offsets" := hmem
    rw [hq1]
    decide
  unfold toDictionary markers2collectionRecord
  dsimp only
  simp [List.nil_append, List.map_append, List.map_cons, normPair,
    getField, bindReq, bindParam, aget, liftE, Bind.bind, Except.bind,
    pure, Except.pure]
  have hrem : aremoveAll (("offsets", normalizeKwarg "offsets" o) ::
      rest.map normPair) ["offsets"] = rest.map normPair := by
    rw [aremoveAll_cons_mem _ _ _ _ (by decide),
      aremoveAll_eq_self _ _ hna]
  rw [hrem]
  unfold horizontalLinesInit
  rw [if_neg (by rw [any_map_normPair]; simp [hrest])]
  rw [if_neg (by decide)]
  rw [if_neg (by decide)]
  rw [markersInitCore_builds _ _ _ _ _ _ (by decide)
    (by rintro ⟨hc, -⟩; exact absurd (Option.some.inj hc) (by decide))
    (by decide) (by decide)]
  simp only [liftE, Option.getD_some, List.map_append, List.map_cons,
    normPair, normalizeKwarg_idem, map_normPair_idem]
  rfl

theorem roundTripVLines (o : PyVal) (ta ota : Option (Option String))
    (rest : List (String × PyVal)) (s : MarkerState)
    (hb : verticalLinesInit o ta ota none rest = .ok s) :
    markers2collectionRecord (toDictionary s) = .ok (.marker s) := by
  unfold verticalLinesInit at hb
  split_ifs at hb with hrest hbtr hbot
  obtain ⟨h1, h2, h3, h4, hs⟩ := markersInitCore_ok _ _ _ _ _ _ _ hb
  subst hs
  have hrest2 : ∀ p ∈ rest, p.1 ∉ lineAdapterReserved := by
    intro p hp hmem
    refine hrest ?_
    simp only [List.any_eq_true, decide_eq_true_eq]
    exact ⟨p, hp, hmem⟩
  have hna : ∀ p ∈ rest.map normPair,
      p.1 ∉ (["offsets"] : List String) := by
    intro p hp hmem
    obtain ⟨q, hq, hpq⟩ := List.mem_map.mp hp
    subst hpq
    refine hrest2 q hq ?_
    simp only [List.mem_cons, List.not_mem_nil, or_false] at hmem
    have hq1 : q.1 = "offsets" := hmem
    rw [hq1]
    decide
  unfold toDictionary markers2collectionRecord
  dsimp only
  simp [List.nil_append, List.map_append, List.map_cons, normPair,
    getField, bindReq, bindParam, aget, liftE, Bind.bind, Except.bind,
    pure, Except.pure]
  have hrem : aremoveAll (("offsets", normalizeKwarg "offsets" o) ::
      rest.map normPair) ["offsets"] = rest.map normPair := by
    rw [aremoveAll_cons_mem _ _ _ _ (by decide),
      aremoveAll_eq_self _ _ hna]
  rw [hrem]
  unfold verticalLinesInit
  rw [if_neg (by rw [any_map_normPair]; simp [hrest])]
  rw [if_neg (by decide)]
  rw [if_neg (by decide)]
  rw [markersInitCore_builds _ _ _ _ _ _ (by decide)
    (by rintro ⟨hc, -⟩; exact absurd (Option.some.inj hc) (by decide))
    (by decide) (by decide)]
  simp only [liftE, Option.getD_some, List.map_append, List.map_cons,
    normPair, normalizeKwarg_idem, map_normPair_idem]
  rfl

theorem roundTripTexts (o : PyVal) (ot : Option String)
    (ta : Option (Option String)) (rest : List (String × PyVal))
    (s : MarkerState) (hb : textsInit o ot ta none rest = .ok s) :
    markers2collectionRecord (toDictionary s) = .ok (.marker s) := by
  unfold textsInit at hb
  split_ifs at hb with hrest hbtr
  obtain ⟨h1, h2, h3, h4, hs⟩ := markersInitCore_ok _ _ _ _ _ _ _ hb
  subst hs
  have hrest2 : ∀ p ∈ rest, p.1 ∉ lineAdapterReserved := by
    intro p hp hmem
    refine hrest ?_
    simp only [List.any_eq_true, decide_eq_true_eq]
    exact ⟨p, hp, hmem⟩
  have hna : ∀ p ∈ rest.map normPair,
      p.1 ∉ (["offsets"] : List String) := by
    intro p hp hmem
    obtain ⟨q, hq, hpq⟩ := List.mem_map.mp hp
    subst hpq
    refine hrest2 q hq ?_
    simp only [List.mem_cons, List.not_mem_nil, or_false] at hmem
    have hq1 : q.1 = "offsets" := hmem
    rw [hq1]
    decide
  unfold toDictionary markers2collectionRecord
  dsimp only
  simp [List.nil_append, List.map_append, List.map_cons, normPair,
    getField, bindReq, bindParam, aget, liftE, Bind.bind, Except.bind,
    pure, Except.pure]
  have hrem : aremoveAll (("offsets", normalizeKwarg "offsets" o) ::
      rest.map normPair) ["offsets"] = rest.map normPair := by
    rw [aremoveAll_cons_mem _ _ _ _ (by decide),
      aremoveAll_eq_self _ _ hna]
  rw [hrem]
  unfold textsInit
  rw [if_neg (by rw [any_map_normPair]; simp [hrest])]
  rw [if_neg (by decide)]
  rw [markersInitCore_builds _ _ _ _ _ _ h1
    (by rintro ⟨-, hc⟩; rcases hc with hc | hc <;>
      exact absurd (Option.some.inj hc) (by decide))
    (by simpa using h3) (by decide)]
  simp only [liftE, Option.getD_some, List.map_append, List.map_cons,
    normPair, normalizeKwarg_idem, map_normPair_idem]
  rfl

theorem roundTripLines (segs : PyVal) (ta ota : Option (Option String))
    (rest : List (String × PyVal)) (s : MarkerState)
    (hb : linesInit segs ta ota none rest = .ok s) :
    markers2collectionRecord (toDictionary s) = .ok (.marker s) := by
  unfold linesInit at hb
  dsimp only at hb
  split_ifs at hb with hrest htr
  obtain ⟨h1, h2, h3, h4, hs⟩ := markersInitCore_ok _ _ _ _ _ _ _ hb
  subst hs
  simp only [Option.getD_some] at h2 h3 h4 ⊢
  have hrest2 : ∀ p ∈ rest, p.1 ∉ (["collection_class", "segments",
      "offsets_transform", "transform", "shift"] : List String) := by
    intro p hp hmem
    refine hrest ?_
    simp only [List.any_eq_true, decide_eq_true_eq]
    exact ⟨p, hp, hmem⟩
  have hna : ∀ p ∈ rest.map normPair,
      p.1 ∉ (["segments"] : List String) := by
    intro p hp hmem
    obtain ⟨q, hq, hpq⟩ := List.mem_map.mp hp
    subst hpq
    refine hrest2 q hq ?_
    simp only [List.mem_cons, List.not_mem_nil, or_false] at hmem
    have hq1 : q.1 = "segments" := hmem
    rw [hq1]
    decide
  unfold toDictionary markers2collectionRecord
  dsimp only
  simp [List.nil_append, List.map_append, List.map_cons, normPair,
    getField, bindReq, bindParam, aget, liftE, Bind.bind, Except.bind,
    pure, Except.pure]
  have hrem : aremoveAll (("segments", normalizeKwarg "segments" segs) ::
      rest.map normPair) ["segments"] = rest.map normPair := by
    rw [aremoveAll_cons_mem _ _ _ _ (by decide),
      aremoveAll_eq_self _ _ hna]
  rw [hrem]
  unfold linesInit
  rw [if_neg (by
    rw [any_map_normPair]
    intro hcon
    simp only [List.any_eq_true, decide_eq_true_eq] at hcon
    obtain ⟨p, hp, hm⟩ := hcon
    exact hrest2 p hp hm)]
  dsimp only
  simp only [Option.getD_some]
  rw [if_neg (not_not_intro htr)]
  rw [markersInitCore_builds _ _ _ _ _ _ (by decide) h2
    (by simpa using h3) (by simpa using h4)]
  simp only [liftE, Option.getD_some, List.map_append, List.map_cons,
    normPair, normalizeKwarg_idem, map_normPair_idem]
  rfl

theorem roundTripArrows (o u v : PyVal) (ta ota : Option (Option String))
    (rest : List (String × PyVal)) (s : MarkerState)
    (hb : arrowsInit o u v ta ota none rest = .ok s) :
    markers2collectionRecord (toDictionary s) = .ok (.marker s) := by
  unfold arrowsInit at hb
  split_ifs at hb with hrest hbtr
  obtain ⟨h1, h2, h3, h4, hs⟩ := markersInitCore_ok _ _ _ _ _ _ _ hb
  subst hs
  simp only [Option.getD_some] at h3 h4 ⊢
  have hrest2 : ∀ p ∈ rest, p.1 ∉ (["collection_class", "offsets", "U", "V",
      "offsets_transform", "transform", "shift"] : List String) := by
    intro p hp hmem
    refine hrest ?_
    simp only [List.any_eq_true, decide_eq_true_eq]
    exact ⟨p, hp, hmem⟩
  have hsub : ∀ x : String,
      x ∈ (["offsets", "U", "V"] : List String) →
      x ∈ (["collection_class", "offsets", "U", "V", "offsets_transform",
        "transform", "shift"] : List String) := by
    intro x hx
    simp only [List.mem_cons, List.not_mem_nil, or_false] at hx
    rcases hx with h | h | h <;> (subst h; decide)
  have hna : ∀ p ∈ rest.map normPair,
      p.1 ∉ (["offsets", "U", "V"] : List String) := by
    intro p hp hmem
    obtain ⟨q, hq, hpq⟩ := List.mem_map.mp hp
    subst hpq
    exact hrest2 q hq (hsub _ hmem)
  unfold toDictionary markers2collectionRecord
  dsimp only
  simp [List.nil_append, List.map_append, List.map_cons, normPair,
    getField, bindReq, bindParam, aget, liftE, Bind.bind, Except.bind,
    pure, Except.pure]
  have hrem : aremoveAll (("offsets", normalizeKwarg "offsets" o) ::
      ("U", normalizeKwarg "U" u) :: ("V", normalizeKwarg "V" v) ::
      rest.map normPair) ["offsets", "U", "V"] = rest.map normPair := by
    rw [aremoveAll_cons_mem _ _ _ _ (by decide),
      aremoveAll_cons_mem _ _ _ _ (by decide),
      aremoveAll_cons_mem _ _ _ _ (by decide),
      aremoveAll_eq_self _ _ hna]
  rw [hrem]
  unfold arrowsInit
  rw [if_neg (by
    rw [any_map_normPair]
    intro hcon
    simp only [List.any_eq_true, decide_eq_true_eq] at hcon
    obtain ⟨p, hp, hm⟩ := hcon
    exact hrest2 p hp hm)]
  rw [if_neg (by decide)]
  simp only [Option.getD_some]
  rw [markersInitCore_builds _ _ _ _ _ _ (by decide)
    (by rintro ⟨hc, -⟩; exact h2 ⟨hc, Or.inr rfl⟩)
    (by simpa using h3) (by decide)]
  simp only [liftE, Option.getD_some, List.map_append, List.map_cons,
    normPair, normalizeKwarg_idem, map_normPair_idem]
  rfl

theorem roundTripPolygons (verts : PyVal) (ta ota : Option (Option String))
    (rest : List (String × PyVal)) (s : MarkerState)
    (hb : polygonsInit verts ta ota none rest = .ok s) :
    markers2collectionRecord (toDictionary s) = .ok (.marker s) := by
  unfold polygonsInit at hb
  split_ifs at hb with hrest hbtr
  obtain ⟨h1, h2, h3, h4, hs⟩ := markersInitCore_ok _ _ _ _ _ _ _ hb
  subst hs
  simp only [Option.getD_some] at h3 h4 ⊢
  have hrest2 : ∀ p ∈ rest, p.1 ∉ (["collection_class", "verts",
      "offsets_transform", "transform", "shift"] : List String) := by
    intro p hp hmem
    refine hrest ?_
    simp only [List.any_eq_true, decide_eq_true_eq]
    exact ⟨p, hp, hmem⟩
  have hna : ∀ p ∈ rest.map normPair,
      p.1 ∉ (["verts"] : List String) := by
    intro p hp hmem
    obtain ⟨q, hq, hpq⟩ := List.mem_map.mp hp
    subst hpq
    refine hrest2 q hq ?_
    simp only [List.mem_cons, List.not_mem_nil, or_false] at hmem
    have hq1 : q.1 = "verts" := hmem
    rw [hq1]
    decide
  unfold toDictionary markers2collectionRecord
  dsimp only
  simp [List.nil_append, List.map_append, List.map_cons, normPair,
    getField, bindReq, bindParam, aget, liftE, Bind.bind, Except.bind,
    pure, Except.pure]
  have hrem : aremoveAll (("verts", normalizeKwarg "verts" verts) ::
      rest.map normPair) ["verts"] = rest.map normPair := by
    rw [aremoveAll_cons_mem _ _ _ _ (by decide),
      aremoveAll_eq_self _ _ hna]
  rw [hrem]
  unfold polygonsInit
  rw [if_neg (by
    rw [any_map_normPair]
    intro hcon
    simp only [List.any_eq_true, decide_eq_true_eq] at hcon
    obtain ⟨p, hp, hm⟩ := hcon
    exact hrest2 p hp hm)]
  rw [if_neg (by decide)]
  simp only [Option.getD_some]
  rw [markersInitCore_builds _ _ _ _ _ _ (by decide)
    (by rintro ⟨-, hc⟩; rcases hc with hc | hc <;>
      exact absurd (Option.some.inj hc) (by decide))
    (by simpa using h3) (by decide)]
  simp only [liftE, Option.getD_some, List.map_append, List.map_cons,
    normPair, normalizeKwarg_idem, map_normPair_idem]
  rfl

/-- Claim C1: for every non-legacy marker construction (the generic `Markers`
class or any of the eleven recognized marker classes, with arbitrary static or
iterating argument values), serializing the live marker and reconstructing it
(`markers2collection (toDictionary s)`) succeeds and returns the very same
marker state — hence the same kind tag, the same `offsets_transform` and
`transform` tags, and bit-for-bit identical argument values. -/
theorem c1_round_trip (b : BuildSpec) (s : MarkerState)
    (hb : build b = .ok s) :
    markers2collection (.record (toDictionary s)) = .ok (.marker s) := by
  cases b with
  | generic cc ot tr kw => exact roundTripGeneric cc ot tr kw s hb
  | points o z a u ot ta rest => exact roundTripPoints o z a u ot ta rest s hb
  | circles o z a u fc ot ta rest =>
      exact roundTripCircles o z a u fc ot ta rest s hb
  | squares o z a u ot ta rest =>
      exact roundTripSquares o z a u ot ta rest s hb
  | ellipses o hv w u av ot ta rest =>
      exact roundTripEllipses o hv w u av ot ta rest s hb
  | rectangles o w hv u av ot ta rest =>
      exact roundTripRectangles o w hv u av ot ta rest s hb
  | hlines o ta ota rest => exact roundTripHLines o ta ota rest s hb
  | vlines o ta ota rest => exact roundTripVLines o ta ota rest s hb
  | texts o ot ta rest => exact roundTripTexts o ot ta rest s hb
  | lines segs ta ota rest => exact roundTripLines segs ta ota rest s hb
  | arrows o u v ta ota rest => exact roundTripArrows o u v ta ota rest s hb
  | polygons verts ta ota rest =>
      exact roundTripPolygons verts ta ota rest s hb

theorem c1_round_trip_witness :
    build c1SpecStatic = .ok c1Static ∧
    markers2collection (.record (toDictionary c1Static)) =
      .ok (.marker c1Static) ∧
    build c1SpecIter = .ok c1Iter ∧
    markers2collection (.record (toDictionary c1Iter)) =
      .ok (.marker c1Iter) :=
  ⟨by with_unfolding_all decide,
   c1_round_trip c1SpecStatic c1Static (by with_unfolding_all decide),
   by with_unfolding_all decide,
   c1_round_trip c1SpecIter c1Iter (by with_unfolding_all decide)⟩

end HSpy
